import Mathlib

/-!
# crypto-tracker: transaction classification and row projection

A shallow embedding of `cmd/import.go` (the `import` command of
igaskin/crypto-tracker) and theorems about it.

Conventions of the embedding:

* Go `string` is `String`; `[]string` and `[]interface{}` holding strings are
  `List String`.
* Go `int64` is `Int`, every arithmetic result passed through `wrap64`.
* Go `float32` is `Float32`, the exact value of the float; `%f` is `fmtF`.
* A runtime panic is a value of `Panic`; `log.Fatal` is `Outcome.fatal`.
* The Google Sheets service, the csv reader and standard output are external:
  every interaction with them is appended to a trace of `Event`s, and the
  answers of the service come from an `Env`.
-/

namespace CryptoTracker

/-! ## Go runtime and `fmt` -/

/-- Runtime panics that the modelled code can raise. -/
inductive Panic
  | indexOutOfRange
  | reflectZeroValue
  deriving DecidableEq, Repr

deriving instance DecidableEq for Except

/-- Two-complement wrap-around of `int64` arithmetic. -/
def wrap64 (x : Int) : Int := (x + 2 ^ 63) % 2 ^ 64 - 2 ^ 63

/-- The verb `%d` applied to an `int64`. -/
def fmtD (i : Int) : String :=
  if i < 0 then "-" ++ Nat.repr i.natAbs else Nat.repr i.natAbs

/-- A `float32` by its exact value: `mant * 2 ^ exp` with a sign bit, the two
infinities, or a NaN. -/
inductive Float32
  | finite (neg : Bool) (mant : Nat) (exp : Int)
  | inf (neg : Bool)
  | nan
  deriving DecidableEq, Repr

/-- The magnitude `mant * 2 ^ exp` times `10 ^ 6`, rounded to the nearest
integer, ties to even: the digits `strconv` keeps for precision 6. -/
def scaled6 (mant : Nat) (exp : Int) : Nat :=
  match exp with
  | Int.ofNat k => mant * 2 ^ k * 10 ^ 6
  | Int.negSucc k =>
    let den := 2 ^ (k + 1)
    let num := mant * 10 ^ 6
    let q := num / den
    let r := num % den
    if den < 2 * r ∨ (2 * r = den ∧ q % 2 = 1) then q + 1 else q

/-- One decimal digit as a character. -/
def digitChar (d : Nat) : Char := Char.ofNat (48 + d % 10)

/-- The six fractional digits of a scaled magnitude. -/
def frac6 (x : Nat) : List Char :=
  [digitChar (x / 100000), digitChar (x / 10000), digitChar (x / 1000),
   digitChar (x / 100), digitChar (x / 10), digitChar x]

/-- The number a list of decimal digit characters writes. -/
def digitsValue (cs : List Char) : Nat :=
  cs.foldl (fun acc c => 10 * acc + (c.toNat - 48)) 0

/-- The verb `%f` (default precision 6) applied to a `float32`. -/
def fmtF : Float32 → String
  | .finite neg m e =>
    (if neg then "-" else "") ++ Nat.repr (scaled6 m e / 10 ^ 6) ++ "."
      ++ String.mk (frac6 (scaled6 m e % 10 ^ 6))
  | .inf false => "+Inf"
  | .inf true => "-Inf"
  | .nan => "NaN"

/-! ## Event taxonomy -/

def reoccurringBuy : String := "Recurring Buy"
def usdToCRO : String := "USD -> CRO"
def eurToCRO : String := "EUR -> CRO"
def buyCRO : String := "Buy CRO"
def signupBonus : String := "Sign-up Bonus Unlocked"
def cryptoEarn : String := "Crypto Earn"

/-! ## Row projection -/

structure RowData where
  Fiat : String
  CRO : String
  PurchasePrice : String
  PercentChange : String
  FiatChange : String
  deriving DecidableEq, Repr

/-- `RowData.ToSlice` on a `*RowData`, `none` being the nil pointer: reflection
over the five fields in declaration order; on nil, `Elem` gives the zero
`Value` and `NumField` panics. -/
def RowData.ToSlice : Option RowData → Except Panic (List String)
  | none => .error .reflectZeroValue
  | some r => .ok [r.Fiat, r.CRO, r.PurchasePrice, r.PercentChange, r.FiatChange]

/-- `NewRowData(record, rowNumber)`, the package variable `croCurrentPrice`
passed as an argument. `.error` is a panic, `.ok none` is the nil row. -/
def NewRowData (croCurrentPrice : Float32) (record : List String) (rowNumber : Int) :
    Except Panic (Option RowData) :=
  match record with
  | _ :: b :: _ :: d :: _ :: f :: _ :: h :: _ :: _ :: _ =>
    let rowData : RowData :=
      { Fiat := ""
        CRO := ""
        PurchasePrice := "=(DIVIDE(A" ++ fmtD rowNumber ++ ",B" ++ fmtD rowNumber ++ "))"
        PercentChange := "=(DIVIDE(MINUS(" ++ fmtF croCurrentPrice ++ ",C" ++ fmtD rowNumber
          ++ ")," ++ fmtF croCurrentPrice ++ "))"
        FiatChange := "=MULTIPLY(A" ++ fmtD rowNumber ++ ",D" ++ fmtD rowNumber ++ ")" }
    if b = reoccurringBuy then
      .ok (some { rowData with Fiat := d, CRO := f })
    else if b = usdToCRO ∨ b = eurToCRO then
      .ok (some { rowData with Fiat := h, CRO := f })
    else if b = buyCRO then
      .ok (some { rowData with Fiat := h, CRO := d })
    else if b = signupBonus ∨ b = cryptoEarn then
      .ok (some rowData)
    else
      .ok none
  | _ => .error .indexOutOfRange

/-! ## The importer and its surroundings -/

/-- What `csv.Reader.Read` returns before the end of the input: a record, or
an error other than `io.EOF`. The end of the list of results is `io.EOF`. -/
inductive ReadResult
  | record (fields : List String)
  | failure (err : String)
  deriving DecidableEq, Repr

/-- The `sheets.GridRange` of a formatting request. -/
structure GridRange where
  StartColumnIndex : Int
  EndColumnIndex : Int
  StartRowIndex : Int
  EndRowIndex : Int
  SheetId : Int
  deriving DecidableEq, Repr

/-- One interaction of the importer with the outside, with its result.
`read none` is a `Read` that returned `io.EOF`; for the three service calls
`err` is the error of `Do()`, `none` being nil. -/
inductive Event
  | read (res : Option ReadResult)
  | valuesUpdate (spreadsheetID : String) (range : String) (values : List String)
      (err : Option String)
  | println (record : List String)
  | spreadsheetsGet (spreadsheetID : String) (res : Except String (List (String × Int)))
  | batchUpdate (spreadsheetID : String) (ranges : List GridRange) (err : Option String)
  deriving DecidableEq, Repr

/-- The outside of the importer: the market price fetched at start-up and the
answers of the Sheets service, each of which may depend on everything that
happened before the call and on the request. `spreadsheetsGet` answers with
the (title, sheet id) pairs of the sheets. -/
structure Env where
  croCurrentPrice : Float32
  valuesUpdate : List Event → String → String → List String → Option String
  spreadsheetsGet : List Event → String → Except String (List (String × Int))
  batchUpdate : List Event → String → List GridRange → Option String

/-- The fields of `TransactionImporter` that are data; the service handle is
the `Env` and the reader is the list of results still to come. -/
structure TransactionImporter where
  SpreadsheetID : String
  fiat : String
  currentRow : Int
  startRowIndex : Int
  startColumn : String
  startColumnIndex : Int
  sheetName : String
  sheetID : Int
  deriving DecidableEq, Repr

/-- An importer together with the trace of its interactions so far. -/
structure State where
  t : TransactionImporter
  trace : List Event
  deriving DecidableEq, Repr

/-- How `parseTransations` ends: `return nil`, `return err`, `log.Fatal(err)`,
or a runtime panic. -/
inductive Outcome
  | ok
  | error (err : String)
  | fatal (err : String)
  | panic (p : Panic)
  deriving DecidableEq, Repr

/-- Control after a piece of `parseTransations`: go on in state `s`, or leave
the function with outcome `o`. -/
inductive Flow
  | next (s : State)
  | stop (o : Outcome) (s : State)
  deriving DecidableEq, Repr

structure TransactionImporterOpts where
  Credentials : String
  SpreadsheetID : String
  CryptoTransactionsFile : String
  StartRow : Int
  StartColumn : String
  SheetName : String
  Fiat : String
  deriving DecidableEq, Repr

/-- The struct built at the end of `NewTransactionImporter`, `strings.ToUpper`
being the argument `toUpper`; `none` is the panic of indexing the runes of an
empty start column. Opening the credentials and the csv file happens outside.
The rune arithmetic is `int32`, then converted to `int64`. -/
def NewTransactionImporter (toUpper : String → String) (opts : TransactionImporterOpts) :
    Option TransactionImporter :=
  match (toUpper opts.StartColumn).data with
  | [] => none
  | c :: _ =>
    some
      { SpreadsheetID := opts.SpreadsheetID
        fiat := opts.Fiat
        currentRow := opts.StartRow
        startRowIndex := opts.StartRow
        startColumn := opts.StartColumn
        startColumnIndex := ((c.toNat : Int) - 65 + 2 ^ 31) % 2 ^ 32 - 2 ^ 31
        sheetName := opts.SheetName
        sheetID := 0 }

/-- The range string `fmt.Sprintf("%s!%s%d", sheetName, startColumn, currentRow)`. -/
def rangez (t : TransactionImporter) : String :=
  t.sheetName ++ "!" ++ t.startColumn ++ fmtD t.currentRow

/-- `writeRowData`: one `Values.Update` at the current row; the cursor moves
before the call, whatever the call answers. Returns the error of the call. -/
def writeRowData (env : Env) (s : State) (rowData : List String) : Option String × State :=
  let err := env.valuesUpdate s.trace s.t.SpreadsheetID (rangez s.t) rowData
  (err,
    { t := { s.t with currentRow := wrap64 (s.t.currentRow + 1) }
      trace := s.trace ++ [Event.valuesUpdate s.t.SpreadsheetID (rangez s.t) rowData err] })

/-- `writeRow`: project the record at the current row and send it; on success
the record is printed. A panic of `NewRowData` or `ToSlice` happens before
anything is changed. -/
def writeRow (env : Env) (s : State) (record : List String) : Flow :=
  match NewRowData env.croCurrentPrice record s.t.currentRow with
  | .error p => .stop (.panic p) s
  | .ok row =>
    match RowData.ToSlice row with
    | .error p => .stop (.panic p) s
    | .ok values =>
      match writeRowData env s values with
      | (some err, s1) => .stop (.error err) s1
      | (none, s1) => .next { s1 with trace := s1.trace ++ [Event.println record] }

/-- The labels of the first `case` of the `switch` in `parseTransations`. -/
def purchaseLabels : List String := [reoccurringBuy, usdToCRO, eurToCRO, buyCRO]

/-- The labels of the second `case` of the `switch` in `parseTransations`. -/
def rewardLabels : List String := [signupBonus, cryptoEarn]

/-- The body of the loop of `parseTransations` after a successful `Read`: the
`switch` on `record[1]`. -/
def streamStep (env : Env) (s : State) (record : List String) : Flow :=
  match record with
  | _ :: label :: _ =>
    if label ∈ purchaseLabels then
      writeRow env s record
    else if label ∈ rewardLabels then
      .next s
    else
      .next s
  | _ => .stop (.panic .indexOutOfRange) s

/-- The `for` loop of `parseTransations` over the results the reader will
give. `Flow.next` is leaving the loop through `break` at `io.EOF`. -/
def streamLoop (env : Env) : List ReadResult → State → Flow
  | [], s => .next { s with trace := s.trace ++ [Event.read none] }
  | .failure err :: _, s =>
    .stop (.fatal err) { s with trace := s.trace ++ [Event.read (some (.failure err))] }
  | .record r :: rest, s =>
    match streamStep env { s with trace := s.trace ++ [Event.read (some (.record r))] } r with
    | .stop o s1 => .stop o s1
    | .next s1 => streamLoop env rest s1

/-- The header row of `parseTransations`. -/
def header (t : TransactionImporter) : List String :=
  [t.fiat, "CRO", "CRO Price", "Percent Change", t.fiat ++ " Change"]

/-- The footer row of `parseTransations`, built when the loop is left. -/
def footer (t : TransactionImporter) : List String :=
  [ "=SUM(" ++ t.startColumn ++ fmtD t.startRowIndex ++ ":" ++ t.startColumn
      ++ fmtD (wrap64 (t.currentRow - 1)) ++ ")",
    "=SUM(" ++ "B" ++ fmtD t.startRowIndex ++ ":" ++ "B" ++ fmtD (wrap64 (t.currentRow - 1)) ++ ")",
    "=AVERAGE(" ++ "C" ++ fmtD t.startRowIndex ++ ":" ++ "C"
      ++ fmtD (wrap64 (t.currentRow - 1)) ++ ")",
    "=MINUS(DIVIDE(SUM(" ++ "A" ++ fmtD t.currentRow ++ "," ++ "E" ++ fmtD t.currentRow
      ++ "), ABS(" ++ "A" ++ fmtD t.currentRow ++ ")),1)",
    "=SUM(" ++ "E" ++ fmtD t.startRowIndex ++ ":" ++ "E" ++ fmtD (wrap64 (t.currentRow - 1)) ++ ")" ]

/-- `getSheetID`: the id of the last sheet whose title is the sheet name; an
error of the call is dropped and the function returns nil either way. -/
def getSheetID (env : Env) (s : State) : State :=
  let res := env.spreadsheetsGet s.trace s.t.SpreadsheetID
  let tr := s.trace ++ [Event.spreadsheetsGet s.t.SpreadsheetID res]
  match res with
  | .error _ => { s with trace := tr }
  | .ok sheets =>
    { t := sheets.foldl
        (fun t sheet => if sheet.1 = t.sheetName then { t with sheetID := sheet.2 } else t) s.t
      trace := tr }

/-- The grid ranges of the twelve requests of the formatting `BatchUpdate`, in
order; the cell formats, borders and colours are constants of the source. -/
def formatRanges (t : TransactionImporter) : List GridRange :=
  let col (a b : Int) (r0 r1 : Int) : GridRange :=
    { StartColumnIndex := wrap64 (t.startColumnIndex + a)
      EndColumnIndex := wrap64 (t.startColumnIndex + b)
      StartRowIndex := r0
      EndRowIndex := r1
      SheetId := t.sheetID }
  let top := wrap64 (t.startRowIndex - 1)
  let cur := t.currentRow
  [ col 0 1 top cur, col 4 5 top cur, col 2 3 top cur, col 1 2 top cur, col 3 4 top cur,
    col 0 5 top cur, col 0 5 top cur,
    col 0 5 (wrap64 (cur - 2)) (wrap64 (cur - 1)),
    col 0 5 top t.startRowIndex,
    col 0 5 (wrap64 (cur - 2)) (wrap64 (cur - 1)),
    col 3 5 top cur, col 3 5 top cur ]

/-- `parseTransations` on an importer whose reader will give `reads`. -/
def parseTransations (env : Env) (reads : List ReadResult) (s : State) : Outcome × State :=
  match writeRowData env s (header s.t) with
  | (some err, s1) => (.error err, s1)
  | (none, s1) =>
    match streamLoop env reads s1 with
    | .stop o s2 => (o, s2)
    | .next s2 =>
      match writeRowData env s2 (footer s2.t) with
      | (some err, s3) => (.error err, s3)
      | (none, s3) =>
        let s4 := getSheetID env s3
        let err := env.batchUpdate s4.trace s4.t.SpreadsheetID (formatRanges s4.t)
        let s5 : State :=
          { s4 with
            trace := s4.trace ++ [Event.batchUpdate s4.t.SpreadsheetID (formatRanges s4.t) err] }
        match err with
        | some e => (.error e, s5)
        | none => (.ok, s5)

/-- The row writes of a trace, in order: range and values of each
`Values.Update`, whether it succeeded or not. -/
def writes : List Event → List (String × List String)
  | [] => []
  | .valuesUpdate _ range values _ :: es => (range, values) :: writes es
  | _ :: es => writes es

/-- A row write that the service refused. -/
def failedWrite : Event → Bool
  | .valuesUpdate _ _ _ (some _) => true
  | _ => false

/-- Whether the `switch` of `parseTransations` sends the record to `writeRow`. -/
def isPurchase (record : List String) : Bool :=
  match record[1]? with
  | some label => decide (label ∈ purchaseLabels)
  | none => false

/-- The values `writeRow` sends for a record at row `n`; empty when the
projection panics. -/
def rowValues (price : Float32) (record : List String) (n : Int) : List String :=
  match NewRowData price record n with
  | .error _ => []
  | .ok row =>
    match RowData.ToSlice row with
    | .error _ => []
    | .ok values => values

/-- The row writes of `writeRow` for the given records at consecutive rows from
`c` on, in sheet `sheet` and column `col`. -/
def dataRows (price : Float32) (sheet col : String) :
    Int → List (List String) → List (String × List String)
  | _, [] => []
  | c, r :: rs =>
    (sheet ++ "!" ++ col ++ fmtD c, rowValues price r c) :: dataRows price sheet col (c + 1) rs

/-- A Sheets service that accepts every request. -/
def okEnv (price : Float32) : Env :=
  { croCurrentPrice := price
    valuesUpdate := fun _ _ _ _ => none
    spreadsheetsGet := fun _ _ => .ok []
    batchUpdate := fun _ _ _ => none }

/-- A Sheets service that accepts the first request and refuses every later
row write with the error `quota`. -/
def quotaEnv (price : Float32) : Env :=
  { croCurrentPrice := price
    valuesUpdate := fun tr _ _ _ => if tr.length = 0 then none else some "quota"
    spreadsheetsGet := fun _ _ => .ok []
    batchUpdate := fun _ _ _ => none }

/-- `strings.ToUpper` on ASCII text. -/
def asciiUpper (s : String) : String := String.mk (s.data.map Char.toUpper)

/-- The options the `import` command passes, for sheet `ROI` and fiat `USD`. -/
def opts0 : TransactionImporterOpts :=
  { Credentials := "credentials.json"
    SpreadsheetID := "id"
    CryptoTransactionsFile := "crypto_transations.csv"
    StartRow := 1
    StartColumn := "A"
    SheetName := "ROI"
    Fiat := "USD" }

/-- The importer the `import` command builds for sheet `ROI` and fiat `USD`. -/
def importer0 : TransactionImporter :=
  { SpreadsheetID := "id"
    fiat := "USD"
    currentRow := 1
    startRowIndex := 1
    startColumn := "A"
    startColumnIndex := 0
    sheetName := "ROI"
    sheetID := 0 }

/-- The float32 nearest to 0.15. -/
def price015 : Float32 := .finite false 10066330 (-26)

/-- The state a piece of control ends in. -/
def Flow.state : Flow → State
  | .next s => s
  | .stop _ s => s

/-! ## The explorer client (`lib/client.go`) -/

/-- The data of an `http.Client`; `&http.Client{}` is the zero value. -/
structure HttpClient where
  Timeout : Int
  deriving DecidableEq, Repr

/-- The struct `ExplorerClient`; `Client` is a pointer, `none` being nil. -/
structure ExplorerClient where
  Server : String
  Client : Option HttpClient
  deriving DecidableEq, Repr

/-- `strings.HasSuffix(s, suffix)`: `s` is at least as long as `suffix` and
its tail of that length is `suffix`. -/
def HasSuffix (s suffix : String) : Bool :=
  decide (suffix.data.length ≤ s.data.length ∧
    s.data.drop (s.data.length - suffix.data.length) = suffix.data)

/-- `NewExplorerClient(server)`: the struct literal sets `Server` only, so
`Client` starts nil; then the trailing slash and the default client. -/
def NewExplorerClient (server : String) : ExplorerClient :=
  let explorerClient : ExplorerClient := { Server := server, Client := none }
  let explorerClient : ExplorerClient :=
    if !HasSuffix explorerClient.Server "/" then
      { explorerClient with Server := explorerClient.Server ++ "/" }
    else explorerClient
  let explorerClient : ExplorerClient :=
    if explorerClient.Client = none then
      { explorerClient with Client := some { Timeout := 0 } }
    else explorerClient
  explorerClient

/-- The importer with its row cursor blanked: what a run never changes. -/
def withoutCursor (t : TransactionImporter) : TransactionImporter := { t with currentRow := 0 }

/-- No event of the list is a refused row write. -/
def NoFail (evs : List Event) : Prop := ∀ ev ∈ evs, failedWrite ev = false

/-- Either no event is a refused row write, or the only one is the last event
and its error is the outcome. -/
def FailLast (o : Outcome) (evs : List Event) : Prop :=
  NoFail evs ∨ ∃ pre id rg vs e,
    evs = pre ++ [Event.valuesUpdate id rg vs (some e)] ∧ NoFail pre ∧ o = .error e

/-- What every piece of control does to a state `s`: it only moves the cursor
and appends events; it goes on only if no write was refused, and if a write
was refused that write is the last event and its error the outcome. -/
def Flow.Sound (s : State) (f : Flow) : Prop :=
  withoutCursor f.state.t = withoutCursor s.t ∧
  ∃ evs, f.state.trace = s.trace ++ evs ∧
    match f with
    | .next _ => NoFail evs
    | .stop o _ => FailLast o evs

/-! ## Theorems: row projection -/

theorem exists_ten_fields (record : List String) (hlen : 10 ≤ record.length) :
    ∃ a b c d e f g h i j rest,
      record = a :: b :: c :: d :: e :: f :: g :: h :: i :: j :: rest := by
  rcases record with _ | ⟨a, _ | ⟨b, _ | ⟨c, _ | ⟨d, _ | ⟨e, _ | ⟨f, _ | ⟨g, _ | ⟨h, _ | ⟨i,
    _ | ⟨j, rest⟩⟩⟩⟩⟩⟩⟩⟩⟩⟩
  all_goals try (simp at hlen)
  exact ⟨a, b, c, d, e, f, g, h, i, j, rest, rfl⟩

theorem NewRowData_short (price : Float32) (record : List String) (n : Int)
    (hlen : record.length < 10) : NewRowData price record n = .error .indexOutOfRange := by
  rcases record with _ | ⟨a, _ | ⟨b, _ | ⟨c, _ | ⟨d, _ | ⟨e, _ | ⟨f, _ | ⟨g, _ | ⟨h, _ | ⟨i,
    _ | ⟨j, rest⟩⟩⟩⟩⟩⟩⟩⟩⟩⟩
  all_goals try (simp [NewRowData])
  simp at hlen
  omega

/-- C1: for a record with at least 10 fields and any row number, `NewRowData`
takes the fiat and crypto amounts from the fields the label at index 1 selects:
"Recurring Buy" fields 3 and 5, "USD -> CRO" and "EUR -> CRO" fields 7 and 5,
"Buy CRO" fields 7 and 3, each copied unchanged. -/
theorem NewRowData_selects_amounts (price : Float32) (record : List String) (rowNumber : Int)
    (hlen : 10 ≤ record.length) :
    (record[1]? = some "Recurring Buy" →
      ∃ row, NewRowData price record rowNumber = .ok (some row) ∧
        record[3]? = some row.Fiat ∧ record[5]? = some row.CRO) ∧
    (record[1]? = some "USD -> CRO" ∨ record[1]? = some "EUR -> CRO" →
      ∃ row, NewRowData price record rowNumber = .ok (some row) ∧
        record[7]? = some row.Fiat ∧ record[5]? = some row.CRO) ∧
    (record[1]? = some "Buy CRO" →
      ∃ row, NewRowData price record rowNumber = .ok (some row) ∧
        record[7]? = some row.Fiat ∧ record[3]? = some row.CRO) := by
  obtain ⟨a, b, c, d, e, f, g, h, i, j, rest, rfl⟩ := exists_ten_fields record hlen
  refine ⟨?_, ?_, ?_⟩
  · intro hb
    simp at hb
    subst hb
    simp [NewRowData, reoccurringBuy]
  · intro hb
    simp at hb
    rcases hb with hb | hb <;> subst hb <;>
      simp [NewRowData, reoccurringBuy, usdToCRO, eurToCRO]
  · intro hb
    simp at hb
    subst hb
    simp [NewRowData, reoccurringBuy, usdToCRO, eurToCRO, buyCRO]

theorem NewRowData_selects_amounts_witness :
    10 ≤ ["t", "Recurring Buy", "", "25.00", "", "10.5", "", "", "", ""].length ∧
    ∃ row, NewRowData price015 ["t", "Recurring Buy", "", "25.00", "", "10.5", "", "", "", ""] 2
        = .ok (some row) ∧ row.Fiat = "25.00" ∧ row.CRO = "10.5" := by
  refine ⟨by decide, ?_⟩
  obtain ⟨row, h1, h2, h3⟩ :=
    (NewRowData_selects_amounts price015
      ["t", "Recurring Buy", "", "25.00", "", "10.5", "", "", "", ""] 2 (by decide)).1 (by decide)
  exact ⟨row, h1, by simpa using h2.symm, by simpa using h3.symm⟩

theorem digitChar_isDigit (d : Nat) : (digitChar d).isDigit = true := by
  unfold digitChar
  have h : d % 10 < 10 := Nat.mod_lt _ (by decide)
  generalize d % 10 = k at h
  interval_cases k <;> decide

theorem digitChar_toNat (d : Nat) : (digitChar d).toNat - 48 = d % 10 := by
  unfold digitChar
  have h : d % 10 < 10 := Nat.mod_lt _ (by decide)
  generalize d % 10 = k at h
  interval_cases k <;> decide

theorem digitsValue_frac6 (x : Nat) : digitsValue (frac6 x) = x % 10 ^ 6 := by
  simp only [digitsValue, frac6, List.foldl_cons, List.foldl_nil, digitChar_toNat]
  omega

theorem scaled6_nearest (m : Nat) (e : Int) :
    |(scaled6 m e : ℚ) - (m : ℚ) * (2 : ℚ) ^ e * 10 ^ 6| ≤ 1 / 2 ∧
    (|(scaled6 m e : ℚ) - (m : ℚ) * (2 : ℚ) ^ e * 10 ^ 6| = 1 / 2 → scaled6 m e % 2 = 0) := by
  cases e with
  | ofNat k =>
    have h : (scaled6 m (Int.ofNat k) : ℚ) = (m : ℚ) * (2 : ℚ) ^ (Int.ofNat k) * 10 ^ 6 := by
      simp only [scaled6, Int.ofNat_eq_coe, zpow_natCast]
      push_cast
      ring
    rw [h]
    simp
  | negSucc k =>
    have hden : (0 : ℚ) < ((2 ^ (k + 1) : ℕ) : ℚ) := by positivity
    have hdiv := Nat.div_add_mod (m * 10 ^ 6) (2 ^ (k + 1))
    have hr : m * 10 ^ 6 % 2 ^ (k + 1) < 2 ^ (k + 1) := Nat.mod_lt _ (by positivity)
    generalize hq : m * 10 ^ 6 / 2 ^ (k + 1) = qq at hdiv
    generalize hrr : m * 10 ^ 6 % 2 ^ (k + 1) = r at hdiv hr
    have hval : (m : ℚ) * (2 : ℚ) ^ (Int.negSucc k) * 10 ^ 6 =
        ((qq : ℚ) * ((2 ^ (k + 1) : ℕ) : ℚ) + r) / ((2 ^ (k + 1) : ℕ) : ℚ) := by
      have : ((m * 10 ^ 6 : ℕ) : ℚ) = ((2 ^ (k + 1) : ℕ) : ℚ) * qq + r := by
        exact_mod_cast hdiv.symm
      rw [zpow_negSucc]
      push_cast at this ⊢
      field_simp
      linarith
    have hX : scaled6 m (Int.negSucc k) =
        if 2 ^ (k + 1) < 2 * r ∨ (2 * r = 2 ^ (k + 1) ∧ qq % 2 = 1) then qq + 1 else qq := by
      simp only [scaled6, hq, hrr]
    rw [hX, hval]
    generalize (2 ^ (k + 1) : ℕ) = den at *
    have hrq : (r : ℚ) < den := by exact_mod_cast hr
    split
    · rename_i hc
      have h2 : (den : ℚ) ≤ 2 * r := by
        rcases hc with hc | hc
        · exact_mod_cast hc.le
        · exact_mod_cast hc.1.symm.le
      have hdiff : ((qq + 1 : ℕ) : ℚ) - ((qq : ℚ) * den + r) / den = (den - r) / den := by
        push_cast
        field_simp
        ring
      rw [hdiff]
      have hpos : (0 : ℚ) ≤ (den - r) / den := by
        apply div_nonneg <;> linarith
      rw [abs_of_nonneg hpos]
      constructor
      · rw [div_le_iff₀ hden]
        linarith
      · intro heq
        rw [div_eq_iff hden.ne'] at heq
        have h3 : (2 : ℚ) * r = den := by linarith
        have h4 : 2 * r = den := by exact_mod_cast h3
        rcases hc with hc | hc
        · omega
        · omega
    · rename_i hc
      have h2 : (2 : ℚ) * r ≤ den := by
        have : 2 * r ≤ den := by
          by_contra hn
          exact hc (Or.inl (by omega))
        exact_mod_cast this
      have hdiff : (qq : ℚ) - ((qq : ℚ) * den + r) / den = -(r / den) := by
        field_simp
      rw [hdiff, abs_neg]
      have hpos : (0 : ℚ) ≤ (r : ℚ) / den := by
        apply div_nonneg
        · exact_mod_cast Nat.zero_le r
        · linarith
      rw [abs_of_nonneg hpos]
      constructor
      · rw [div_le_iff₀ hden]
        linarith
      · intro heq
        rw [div_eq_iff hden.ne'] at heq
        have h3 : (2 : ℚ) * r = den := by linarith
        have h4 : 2 * r = den := by exact_mod_cast h3
        have : ¬ (qq % 2 = 1) := fun h => hc (Or.inr ⟨h4, h⟩)
        omega

/-- C2: for a purchase-kind record with at least 10 fields, any row number `n`
and any market price, the row of `NewRowData` has the three formulas
`=(DIVIDE(An,Bn))`, `=MULTIPLY(An,Dn)` and `=(DIVIDE(MINUS(P,Cn),P))`, `n` in
decimal and `P` the `%f` rendering of the price in both places. For a finite
price of magnitude `m * 2 ^ e`, `P` is the sign, then the decimal integer part
and six fractional digits of the integer `q` nearest to `m * 2 ^ e * 10 ^ 6`
(ties to the even one): `P` writes the market price rounded to six decimals.
An infinite price renders as `+Inf` or `-Inf`, a NaN as `NaN`. The formulas
do not depend on the fields (two purchase records get the same three
formulas); for `n = 2` and the float32 nearest 0.15 the strings are the
ones of the scenario; and a few more renderings are evaluated, two of them
ties (1/128 rounds down to the even 7812, 3/128 up to the even 23438). -/
theorem NewRowData_formulas (price : Float32) (record : List String) (n : Int)
    (hlen : 10 ≤ record.length) (hlabel : ∃ l ∈ purchaseLabels, record[1]? = some l) :
    (∃ row, NewRowData price record n = .ok (some row) ∧
      row.PurchasePrice = "=(DIVIDE(A" ++ fmtD n ++ ",B" ++ fmtD n ++ "))" ∧
      row.PercentChange =
        "=(DIVIDE(MINUS(" ++ fmtF price ++ ",C" ++ fmtD n ++ ")," ++ fmtF price ++ "))" ∧
      row.FiatChange = "=MULTIPLY(A" ++ fmtD n ++ ",D" ++ fmtD n ++ ")" ∧
      ∀ record2 : List String, 10 ≤ record2.length →
        (∃ l ∈ purchaseLabels, record2[1]? = some l) →
        ∃ row2, NewRowData price record2 n = .ok (some row2) ∧
          row2.PurchasePrice = row.PurchasePrice ∧ row2.PercentChange = row.PercentChange ∧
          row2.FiatChange = row.FiatChange) ∧
    (∀ neg m e, price = .finite neg m e →
      ∃ (q : Nat) (frac : List Char),
        |(q : ℚ) - (m : ℚ) * (2 : ℚ) ^ e * 10 ^ 6| ≤ 1 / 2 ∧
        (|(q : ℚ) - (m : ℚ) * (2 : ℚ) ^ e * 10 ^ 6| = 1 / 2 → q % 2 = 0) ∧
        fmtF price =
          (if neg then "-" else "") ++ Nat.repr (q / 10 ^ 6) ++ "." ++ String.mk frac ∧
        frac.length = 6 ∧ (∀ c ∈ frac, c.isDigit = true) ∧
        digitsValue frac = q % 10 ^ 6) ∧
    (fmtF (.inf false) = "+Inf" ∧ fmtF (.inf true) = "-Inf" ∧ fmtF .nan = "NaN") ∧
    fmtD 2 = "2" ∧ fmtF price015 = "0.150000" ∧
    NewRowData price015 ["t2", "Recurring Buy", "", "50.00", "", "20.0", "", "", "", ""] 2 =
      .ok (some
        { Fiat := "50.00"
          CRO := "20.0"
          PurchasePrice := "=(DIVIDE(A2,B2))"
          PercentChange := "=(DIVIDE(MINUS(0.150000,C2),0.150000))"
          FiatChange := "=MULTIPLY(A2,D2)" }) ∧
    (fmtD 12 = "12" ∧ fmtD 0 = "0" ∧ fmtD (-3) = "-3" ∧
      fmtF (.finite true 3 (-1)) = "-1.500000" ∧
      fmtF (.finite false 1 (-7)) = "0.007812" ∧
      fmtF (.finite false 3 (-7)) = "0.023438" ∧
      fmtF (.finite false 5 1) = "10.000000") := by
  have key : ∀ rec : List String, 10 ≤ rec.length →
      (∃ l ∈ purchaseLabels, rec[1]? = some l) →
      ∃ row, NewRowData price rec n = .ok (some row) ∧
        row.PurchasePrice = "=(DIVIDE(A" ++ fmtD n ++ ",B" ++ fmtD n ++ "))" ∧
        row.PercentChange =
          "=(DIVIDE(MINUS(" ++ fmtF price ++ ",C" ++ fmtD n ++ ")," ++ fmtF price ++ "))" ∧
        row.FiatChange = "=MULTIPLY(A" ++ fmtD n ++ ",D" ++ fmtD n ++ ")" := by
    intro rec hl hlab
    obtain ⟨a, b, c, d, e, f, g, h, i, j, rest, rfl⟩ := exists_ten_fields rec hl
    obtain ⟨l, hl1, hl2⟩ := hlab
    simp at hl2
    subst hl2
    simp [purchaseLabels] at hl1
    rcases hl1 with hb | hb | hb | hb <;> subst hb <;>
      simp [NewRowData, reoccurringBuy, usdToCRO, eurToCRO, buyCRO]
  refine ⟨?_, ?_, ⟨rfl, rfl, rfl⟩, by decide, by decide, by decide, by decide⟩
  · obtain ⟨row, h1, h2, h3, h4⟩ := key record hlen hlabel
    refine ⟨row, h1, h2, h3, h4, ?_⟩
    intro record2 hl2 hlab2
    obtain ⟨row2, g1, g2, g3, g4⟩ := key record2 hl2 hlab2
    exact ⟨row2, g1, g2.trans h2.symm, g3.trans h3.symm, g4.trans h4.symm⟩
  · intro neg m e hp
    subst hp
    refine ⟨scaled6 m e, frac6 (scaled6 m e % 10 ^ 6), (scaled6_nearest m e).1,
      (scaled6_nearest m e).2, rfl, rfl, ?_, ?_⟩
    · intro c hc
      simp only [frac6, List.mem_cons, List.mem_singleton, List.not_mem_nil, or_false] at hc
      rcases hc with h | h | h | h | h | h <;> subst h <;> exact digitChar_isDigit _
    · rw [digitsValue_frac6]
      exact Nat.mod_mod _ _

theorem NewRowData_formulas_witness :
    ∃ row, NewRowData price015 ["t", "Buy CRO", "", "7", "", "", "", "3.5", "", ""] 12 =
        .ok (some row) ∧
      row.PurchasePrice = "=(DIVIDE(A" ++ fmtD 12 ++ ",B" ++ fmtD 12 ++ "))" ∧
      row.PercentChange =
        "=(DIVIDE(MINUS(" ++ fmtF price015 ++ ",C" ++ fmtD 12 ++ ")," ++ fmtF price015 ++ "))" ∧
      row.FiatChange = "=MULTIPLY(A" ++ fmtD 12 ++ ",D" ++ fmtD 12 ++ ")" := by
  obtain ⟨row, h1, h2, h3, h4, _⟩ :=
    (NewRowData_formulas price015 ["t", "Buy CRO", "", "7", "", "", "", "3.5", "", ""] 12
      (by decide) ⟨"Buy CRO", by decide, by decide⟩).1
  exact ⟨row, h1, h2, h3, h4⟩

/-- C7 (the code at the failing input): for the reward label "Crypto Earn" in
a record of 10 fields `NewRowData` returns a row, not nil, with empty `Fiat`
and `CRO`; the same holds for "Sign-up Bonus Unlocked"; an unrecognized label
gives nil. -/
theorem NewRowData_reward_returns_row :
    NewRowData price015 ["t1", "Crypto Earn", "", "", "", "", "", "", "", ""] 5 =
      .ok (some
        { Fiat := ""
          CRO := ""
          PurchasePrice := "=(DIVIDE(A5,B5))"
          PercentChange := "=(DIVIDE(MINUS(0.150000,C5),0.150000))"
          FiatChange := "=MULTIPLY(A5,D5)" }) ∧
    NewRowData price015 ["t1", "Sign-up Bonus Unlocked", "", "", "", "", "", "", "", ""] 5 ≠
      .ok none ∧
    NewRowData price015 ["t1", "Refund", "", "", "", "", "", "", "", ""] 5 = .ok none := by
  decide

/-! ## Theorems: one record -/

theorem NewRowData_purchase (price : Float32) (record : List String) (n : Int)
    (hlen : 10 ≤ record.length) (hlabel : ∃ l ∈ purchaseLabels, record[1]? = some l) :
    ∃ row, NewRowData price record n = .ok (some row) ∧
      record[if record[1]? = some reoccurringBuy then 3 else 7]? = some row.Fiat ∧
      record[if record[1]? = some buyCRO then 3 else 5]? = some row.CRO := by
  obtain ⟨a, b, c, d, e, f, g, h, i, j, rest, rfl⟩ := exists_ten_fields record hlen
  obtain ⟨l, hl1, hl2⟩ := hlabel
  simp at hl2
  subst hl2
  simp [purchaseLabels] at hl1
  rcases hl1 with hb | hb | hb | hb <;> subst hb <;>
    simp [NewRowData, reoccurringBuy, usdToCRO, eurToCRO, buyCRO]

/-- C8 (counterexample): a "Recurring Buy" record whose fiat field is empty and
whose crypto field is not a number is projected and written without any
failure: the row with the empty amount reaches the sink. -/
theorem writeRow_emits_unvalidated_row :
    writeRow (okEnv price015) ⟨importer0, []⟩
        ["t", "Recurring Buy", "", "", "", "abc", "", "", "", ""] =
      .next
        ⟨{ importer0 with currentRow := 2 },
          [Event.valuesUpdate "id" "ROI!A1"
              ["", "abc", "=(DIVIDE(A1,B1))", "=(DIVIDE(MINUS(0.150000,C1),0.150000))",
                "=MULTIPLY(A1,D1)"] none,
            Event.println ["t", "Recurring Buy", "", "", "", "abc", "", "", "", ""]]⟩ := by
  decide

/-- C8 (amended): for a record with a purchase label, `writeRow` fails only
when the record has fewer than 10 fields, with an index-out-of-range panic
before anything is written; with at least 10 fields the two amounts are the
selected fields copied unchanged, whatever they hold, and the row is sent to
the sink. -/
theorem writeRow_no_validation (env : Env) (s : State) (record : List String)
    (hlabel : ∃ l ∈ purchaseLabels, record[1]? = some l) :
    (record.length < 10 →
      NewRowData env.croCurrentPrice record s.t.currentRow = .error .indexOutOfRange ∧
      writeRow env s record = .stop (.panic .indexOutOfRange) s) ∧
    (10 ≤ record.length →
      ∃ row, NewRowData env.croCurrentPrice record s.t.currentRow = .ok (some row) ∧
        record[if record[1]? = some reoccurringBuy then 3 else 7]? = some row.Fiat ∧
        record[if record[1]? = some buyCRO then 3 else 5]? = some row.CRO ∧
        ∃ err tail, (writeRow env s record).state.trace =
          s.trace ++ Event.valuesUpdate s.t.SpreadsheetID (rangez s.t)
            [row.Fiat, row.CRO, row.PurchasePrice, row.PercentChange, row.FiatChange] err
            :: tail) := by
  constructor
  · intro hlen
    have h := NewRowData_short env.croCurrentPrice record s.t.currentRow hlen
    exact ⟨h, by simp [writeRow, h]⟩
  · intro hlen
    obtain ⟨row, h1, h2, h3⟩ :=
      NewRowData_purchase env.croCurrentPrice record s.t.currentRow hlen hlabel
    refine ⟨row, h1, h2, h3, ?_⟩
    cases herr : env.valuesUpdate s.trace s.t.SpreadsheetID (rangez s.t)
        [row.Fiat, row.CRO, row.PurchasePrice, row.PercentChange, row.FiatChange] with
    | none =>
      exact ⟨none, [Event.println record], by
        simp [writeRow, h1, RowData.ToSlice, writeRowData, herr, Flow.state]⟩
    | some e =>
      exact ⟨some e, [], by
        simp [writeRow, h1, RowData.ToSlice, writeRowData, herr, Flow.state]⟩

theorem writeRow_no_validation_witness :
    (["t", "Buy CRO"].length < 10 →
      NewRowData price015 ["t", "Buy CRO"] 1 = .error .indexOutOfRange ∧
      writeRow (okEnv price015) ⟨importer0, []⟩ ["t", "Buy CRO"] =
        .stop (.panic .indexOutOfRange) ⟨importer0, []⟩) ∧
    ["t", "Buy CRO"].length < 10 :=
  ⟨(writeRow_no_validation (okEnv price015) ⟨importer0, []⟩ ["t", "Buy CRO"]
      ⟨"Buy CRO", by decide, by decide⟩).1, by decide⟩

theorem streamStep_other (env : Env) (s : State) (record : List String)
    (hlen : 2 ≤ record.length) (hlabel : ∀ l ∈ purchaseLabels, record[1]? ≠ some l) :
    streamStep env s record = .next s ∧
    ∀ rest, streamLoop env (.record record :: rest) s =
      streamLoop env rest ⟨s.t, s.trace ++ [Event.read (some (.record record))]⟩ := by
  rcases record with _ | ⟨a, _ | ⟨b, rest0⟩⟩
  · simp at hlen
  · simp at hlen
  · have hb : b ∉ purchaseLabels := fun hm => hlabel b hm (by simp)
    have key : ∀ s0 : State, streamStep env s0 (a :: b :: rest0) = .next s0 := by
      intro s0
      simp [streamStep, hb]
    refine ⟨key s, ?_⟩
    intro rest
    simp [streamLoop, key]

/-- C6: a record with at least 2 fields whose label is none of the four
purchase labels (a reward label or any other string) passes the `switch` with
the state untouched: no row write, no error, `currentRow` unchanged; the loop
goes on with the records after it, the trace one `Read` longer. -/
theorem streamStep_skips (env : Env) (s : State) (record : List String)
    (hlen : 2 ≤ record.length) (hlabel : ∀ l ∈ purchaseLabels, record[1]? ≠ some l) :
    streamStep env s record = .next s ∧
    (streamStep env s record).state.t.currentRow = s.t.currentRow ∧
    (streamStep env s record).state.trace = s.trace ∧
    ∀ rest, streamLoop env (.record record :: rest) s =
      streamLoop env rest ⟨s.t, s.trace ++ [Event.read (some (.record record))]⟩ := by
  obtain ⟨h1, h2⟩ := streamStep_other env s record hlen hlabel
  refine ⟨h1, ?_, ?_, h2⟩
  · rw [h1]
    rfl
  · rw [h1]
    rfl

theorem streamStep_skips_witness :
    streamStep (okEnv price015) ⟨importer0, []⟩ ["t1", "Crypto Earn"] = .next ⟨importer0, []⟩ ∧
    streamStep (okEnv price015) ⟨importer0, []⟩ ["t1", "Refund", "x"] = .next ⟨importer0, []⟩ :=
  ⟨(streamStep_skips (okEnv price015) ⟨importer0, []⟩ ["t1", "Crypto Earn"] (by decide)
      (by decide)).1,
   (streamStep_skips (okEnv price015) ⟨importer0, []⟩ ["t1", "Refund", "x"] (by decide)
      (by decide)).1⟩

/-! ## Theorems: the shape of a run -/

theorem NoFail_nil : NoFail [] := by
  intro ev h
  simp at h

theorem NoFail_append {a b : List Event} (ha : NoFail a) (hb : NoFail b) : NoFail (a ++ b) := by
  intro ev h
  rcases List.mem_append.1 h with h | h
  · exact ha ev h
  · exact hb ev h

theorem FailLast_append {o : Outcome} {a b : List Event} (ha : NoFail a) (hb : FailLast o b) :
    FailLast o (a ++ b) := by
  rcases hb with hb | ⟨pre, id, rg, vs, e, h1, h2, h3⟩
  · exact Or.inl (NoFail_append ha hb)
  · exact Or.inr ⟨a ++ pre, id, rg, vs, e, by rw [h1, List.append_assoc],
      NoFail_append ha h2, h3⟩

theorem Flow.Sound.refl (s : State) : Flow.Sound s (.next s) :=
  ⟨rfl, [], by simp [Flow.state], NoFail_nil⟩

theorem Flow.Sound.trans {s s1 : State} {g : Flow} (h1 : Flow.Sound s (.next s1))
    (h2 : Flow.Sound s1 g) : Flow.Sound s g := by
  obtain ⟨c1, evs1, t1, n1⟩ := h1
  obtain ⟨c2, evs2, t2, n2⟩ := h2
  have n1 : NoFail evs1 := n1
  simp only [Flow.state] at t1 c1
  refine ⟨c2.trans c1, evs1 ++ evs2, by rw [t2, t1, List.append_assoc], ?_⟩
  cases g with
  | next _ => exact NoFail_append n1 n2
  | stop o _ => exact FailLast_append n1 n2

theorem writeRow_sound (env : Env) (s : State) (record : List String) :
    Flow.Sound s (writeRow env s record) := by
  unfold writeRow
  split
  · exact ⟨rfl, [], by simp [Flow.state], Or.inl NoFail_nil⟩
  · split
    · exact ⟨rfl, [], by simp [Flow.state], Or.inl NoFail_nil⟩
    · rename_i values _
      split
      · rename_i err s1 heq
        simp only [writeRowData, Prod.mk.injEq] at heq
        obtain ⟨h1, h2⟩ := heq
        subst h2
        exact ⟨rfl, [Event.valuesUpdate s.t.SpreadsheetID (rangez s.t) values (some err)],
          by simp [Flow.state, h1], Or.inr ⟨[], _, _, _, err, rfl, NoFail_nil, rfl⟩⟩
      · rename_i s1 heq
        simp only [writeRowData, Prod.mk.injEq] at heq
        obtain ⟨h1, h2⟩ := heq
        subst h2
        refine ⟨rfl, [Event.valuesUpdate s.t.SpreadsheetID (rangez s.t) values none,
          Event.println record], by simp [Flow.state, h1], ?_⟩
        intro ev h
        simp at h
        rcases h with rfl | rfl <;> rfl

theorem streamStep_sound (env : Env) (s : State) (record : List String) :
    Flow.Sound s (streamStep env s record) := by
  unfold streamStep
  split
  · split
    · exact writeRow_sound env s _
    · split <;> exact Flow.Sound.refl s
  · exact ⟨rfl, [], by simp [Flow.state], Or.inl NoFail_nil⟩

theorem read_sound (s : State) (res : Option ReadResult) :
    Flow.Sound s (.next { s with trace := s.trace ++ [Event.read res] }) :=
  ⟨rfl, [Event.read res], by simp [Flow.state], by
    intro ev h
    simp at h
    subst h
    rfl⟩

theorem streamLoop_sound (env : Env) (reads : List ReadResult) :
    ∀ s : State, Flow.Sound s (streamLoop env reads s) := by
  induction reads with
  | nil =>
    intro s
    exact read_sound s none
  | cons r rest ih =>
    intro s
    cases r with
    | failure err =>
      exact ⟨rfl, [Event.read (some (.failure err))], by simp [streamLoop, Flow.state],
        Or.inl (by
          intro ev h
          simp at h
          subst h
          rfl)⟩
    | record fields =>
      have h0 := read_sound s (some (.record fields))
      have h1 := streamStep_sound env
        { s with trace := s.trace ++ [Event.read (some (.record fields))] } fields
      simp only [streamLoop]
      cases hstep : streamStep env
          { s with trace := s.trace ++ [Event.read (some (.record fields))] } fields with
      | stop o s1 =>
        rw [hstep] at h1
        exact h0.trans h1
      | next s1 =>
        rw [hstep] at h1
        exact h0.trans (h1.trans (ih s1))

theorem getSheetID_trace (env : Env) (s : State) :
    (getSheetID env s).trace =
      s.trace ++ [Event.spreadsheetsGet s.t.SpreadsheetID
        (env.spreadsheetsGet s.trace s.t.SpreadsheetID)] := by
  unfold getSheetID
  cases env.spreadsheetsGet s.trace s.t.SpreadsheetID <;> rfl

theorem NoFail_singleton {ev : Event} (h : failedWrite ev = false) : NoFail [ev] := by
  intro e he
  simp at he
  subst he
  exact h

theorem writeRowData_eq (env : Env) (s : State) (rowData : List String) (err : Option String)
    (s1 : State) (h : writeRowData env s rowData = (err, s1)) :
    env.valuesUpdate s.trace s.t.SpreadsheetID (rangez s.t) rowData = err ∧
    s1.t = { s.t with currentRow := wrap64 (s.t.currentRow + 1) } ∧
    s1.trace = s.trace ++ [Event.valuesUpdate s.t.SpreadsheetID (rangez s.t) rowData err] := by
  simp only [writeRowData, Prod.mk.injEq] at h
  obtain ⟨h1, h2⟩ := h
  subst h2
  subst h1
  exact ⟨rfl, rfl, rfl⟩

theorem parseTransations_shape (env : Env) (reads : List ReadResult) (st : State) :
    ∃ evs, (parseTransations env reads st).2.trace =
        st.trace ++ Event.valuesUpdate st.t.SpreadsheetID (rangez st.t) (header st.t)
          (env.valuesUpdate st.trace st.t.SpreadsheetID (rangez st.t) (header st.t)) :: evs ∧
      FailLast (parseTransations env reads st).1
        (Event.valuesUpdate st.t.SpreadsheetID (rangez st.t) (header st.t)
          (env.valuesUpdate st.trace st.t.SpreadsheetID (rangez st.t) (header st.t)) :: evs) := by
  unfold parseTransations
  split
  · rename_i err s1 heq
    obtain ⟨h1, _, h3⟩ := writeRowData_eq env st _ _ _ heq
    rw [h1]
    exact ⟨[], h3, Or.inr ⟨[], _, _, _, err, rfl, NoFail_nil, rfl⟩⟩
  · rename_i s1 heq
    obtain ⟨h1, _, h3⟩ := writeRowData_eq env st _ _ _ heq
    rw [h1]
    have hhdr : NoFail [Event.valuesUpdate st.t.SpreadsheetID (rangez st.t) (header st.t) none] :=
      NoFail_singleton rfl
    have hl := streamLoop_sound env reads s1
    split
    · rename_i o s2 hloop
      rw [hloop] at hl
      obtain ⟨_, evs2, t2, n2⟩ := hl
      simp only [Flow.state] at t2
      refine ⟨evs2, by simp [t2, h3], ?_⟩
      exact FailLast_append hhdr n2
    · rename_i s2 hloop
      rw [hloop] at hl
      obtain ⟨_, evs2, t2, n2⟩ := hl
      have n2 : NoFail evs2 := n2
      simp only [Flow.state] at t2
      split
      · rename_i err s3 hfoot
        obtain ⟨_, _, g3⟩ := writeRowData_eq env s2 _ _ _ hfoot
        refine ⟨evs2 ++ [Event.valuesUpdate s2.t.SpreadsheetID (rangez s2.t) (footer s2.t)
          (some err)], by simp [g3, t2, h3], ?_⟩
        exact Or.inr ⟨Event.valuesUpdate st.t.SpreadsheetID (rangez st.t) (header st.t) none
          :: evs2, s2.t.SpreadsheetID, rangez s2.t, footer s2.t, err, by simp,
          NoFail_append hhdr n2, rfl⟩
      · rename_i s3 hfoot
        obtain ⟨_, _, g3⟩ := writeRowData_eq env s2 _ _ _ hfoot
        have hall : NoFail (Event.valuesUpdate st.t.SpreadsheetID (rangez st.t) (header st.t) none
            :: (evs2 ++ [Event.valuesUpdate s2.t.SpreadsheetID (rangez s2.t) (footer s2.t) none,
              Event.spreadsheetsGet s3.t.SpreadsheetID
                (env.spreadsheetsGet s3.trace s3.t.SpreadsheetID),
              Event.batchUpdate (getSheetID env s3).t.SpreadsheetID
                (formatRanges (getSheetID env s3).t)
                (env.batchUpdate (getSheetID env s3).trace (getSheetID env s3).t.SpreadsheetID
                  (formatRanges (getSheetID env s3).t))])) := by
          refine NoFail_append hhdr (NoFail_append n2 ?_)
          intro ev h
          simp at h
          rcases h with rfl | rfl | rfl <;> rfl
        refine ⟨_, ?_, Or.inl hall⟩
        simp only []
        split <;> simp [getSheetID_trace, g3, t2, h3]

theorem wrap64_eq (x : Int) (h1 : -2 ^ 63 ≤ x) (h2 : x < 2 ^ 63) : wrap64 x = x := by
  unfold wrap64
  omega

theorem append_lit {a b c : String} (h : a ++ b = c) (x : String) : a ++ (b ++ x) = c ++ x := by
  rw [← String.append_assoc, h]

theorem NewTransactionImporter_fields (toUpper : String → String)
    (opts : TransactionImporterOpts) (t : TransactionImporter)
    (h : NewTransactionImporter toUpper opts = some t) :
    t.SpreadsheetID = opts.SpreadsheetID ∧ t.fiat = opts.Fiat ∧ t.currentRow = opts.StartRow ∧
    t.startRowIndex = opts.StartRow ∧ t.startColumn = opts.StartColumn ∧
    t.sheetName = opts.SheetName := by
  unfold NewTransactionImporter at h
  split at h
  · simp at h
  · simp only [Option.some.injEq] at h
    subst h
    exact ⟨rfl, rfl, rfl, rfl, rfl, rfl⟩

theorem failed_write_last {pre post p : List Event} {fw f : Event} (hp : NoFail p)
    (hfw : failedWrite fw = true) (h : pre ++ fw :: post = p ++ [f]) :
    post = [] ∧ fw = f ∧ pre = p := by
  rcases List.eq_nil_or_concat post with rfl | ⟨q, x, rfl⟩
  · have h2 := List.append_inj' h rfl
    simp at h2
    exact ⟨rfl, h2.2, h2.1⟩
  · have h1 : (pre ++ fw :: q) ++ [x] = p ++ [f] := by simpa using h
    have h2 := (List.append_inj' h1 rfl).1
    have hmem : fw ∈ p := by
      rw [← h2]
      simp
    have := hp fw hmem
    rw [hfw] at this
    cases this

/-- C9: if some row write of a run was refused by the sink (header, data row
or footer), that write is the last thing the run did (no later read, write,
print or formatting request) and `parseTransations` returns exactly that
error; everything before it, the earlier accepted writes included, stays in
the trace. -/
theorem failed_write_ends_run (env : Env) (reads : List ReadResult) (st : State)
    (pre post : List Event) (id rg : String) (vs : List String) (e : String)
    (h : (parseTransations env reads st).2.trace =
      st.trace ++ pre ++ Event.valuesUpdate id rg vs (some e) :: post) :
    (parseTransations env reads st).1 = .error e ∧ post = [] ∧ NoFail pre := by
  obtain ⟨evs, ht, hf⟩ := parseTransations_shape env reads st
  rw [ht, List.append_assoc] at h
  have h2 := List.append_cancel_left h
  rw [h2] at hf
  rcases hf with hf | ⟨p, id2, rg2, vs2, e2, hp1, hp2, hp3⟩
  · have := hf (Event.valuesUpdate id rg vs (some e)) (by simp)
    simp [failedWrite] at this
  · obtain ⟨g1, g2, g3⟩ := failed_write_last hp2 (by rfl) hp1
    simp only [Event.valuesUpdate.injEq, Option.some.injEq] at g2
    refine ⟨?_, g1, ?_⟩
    · rw [hp3, g2.2.2.2]
    · rw [g3]
      exact hp2

theorem failed_write_ends_run_witness :
    (parseTransations (quotaEnv price015)
      [.record ["t2", "Recurring Buy", "", "50.00", "", "20.0", "", "", "", ""],
       .record ["t3", "Buy CRO", "", "7", "", "", "", "3.5", "", ""]] ⟨importer0, []⟩).1 =
      .error "quota" ∧
    ([] : List Event) = [] ∧
    NoFail [Event.valuesUpdate "id" "ROI!A1"
        ["USD", "CRO", "CRO Price", "Percent Change", "USD Change"] none,
      Event.read (some (.record ["t2", "Recurring Buy", "", "50.00", "", "20.0", "", "", "", ""]))] :=
  failed_write_ends_run (quotaEnv price015)
    [.record ["t2", "Recurring Buy", "", "50.00", "", "20.0", "", "", "", ""],
     .record ["t3", "Buy CRO", "", "7", "", "", "", "3.5", "", ""]] ⟨importer0, []⟩
    [Event.valuesUpdate "id" "ROI!A1"
        ["USD", "CRO", "CRO Price", "Percent Change", "USD Change"] none,
      Event.read (some (.record ["t2", "Recurring Buy", "", "50.00", "", "20.0", "", "", "", ""]))]
    [] "id" "ROI!A2"
    ["50.00", "20.0", "=(DIVIDE(A2,B2))", "=(DIVIDE(MINUS(0.150000,C2),0.150000))",
      "=MULTIPLY(A2,D2)"] "quota" (by decide)

/-- C10: for the importer built from options with fiat symbol `f` and start row
`StartRow`, whatever the records, the first event of a run of
`parseTransations` (before any read) is the write of the header
`[f, "CRO", "CRO Price", "Percent Change", f ++ " Change"]` at row `StartRow`. -/
theorem header_first (toUpper : String → String) (opts : TransactionImporterOpts)
    (t : TransactionImporter) (env : Env) (reads : List ReadResult)
    (h : NewTransactionImporter toUpper opts = some t) :
    ∃ err rest, (parseTransations env reads ⟨t, []⟩).2.trace =
      Event.valuesUpdate opts.SpreadsheetID
        (opts.SheetName ++ "!" ++ opts.StartColumn ++ fmtD opts.StartRow)
        [opts.Fiat, "CRO", "CRO Price", "Percent Change", opts.Fiat ++ " Change"] err :: rest := by
  obtain ⟨h1, h2, h3, _, h5, h6⟩ := NewTransactionImporter_fields toUpper opts t h
  obtain ⟨evs, ht, _⟩ := parseTransations_shape env reads ⟨t, []⟩
  refine ⟨env.valuesUpdate [] t.SpreadsheetID (rangez t) (header t), evs, ?_⟩
  rw [ht]
  simp [rangez, header, h1, h2, h3, h5, h6]

theorem header_first_witness :
    ∃ err rest, (parseTransations (okEnv price015)
        [.record ["t2", "Recurring Buy", "", "50.00", "", "20.0", "", "", "", ""]]
        ⟨importer0, []⟩).2.trace =
      Event.valuesUpdate opts0.SpreadsheetID
        (opts0.SheetName ++ "!" ++ opts0.StartColumn ++ fmtD opts0.StartRow)
        [opts0.Fiat, "CRO", "CRO Price", "Percent Change", opts0.Fiat ++ " Change"] err :: rest :=
  header_first asciiUpper opts0 importer0 (okEnv price015)
    [.record ["t2", "Recurring Buy", "", "50.00", "", "20.0", "", "", "", ""]] (by decide)

theorem footer_strings (t : TransactionImporter) (hcol : t.startColumn = "A")
    (hlo : -2 ^ 63 < t.currentRow) (hhi : t.currentRow < 2 ^ 63) :
    footer t =
      [ "=SUM(A" ++ fmtD t.startRowIndex ++ ":A" ++ fmtD (t.currentRow - 1) ++ ")",
        "=SUM(B" ++ fmtD t.startRowIndex ++ ":B" ++ fmtD (t.currentRow - 1) ++ ")",
        "=AVERAGE(C" ++ fmtD t.startRowIndex ++ ":C" ++ fmtD (t.currentRow - 1) ++ ")",
        "=MINUS(DIVIDE(SUM(A" ++ fmtD t.currentRow ++ ",E" ++ fmtD t.currentRow ++ "), ABS(A"
          ++ fmtD t.currentRow ++ ")),1)",
        "=SUM(E" ++ fmtD t.startRowIndex ++ ":E" ++ fmtD (t.currentRow - 1) ++ ")" ] := by
  have h1 : wrap64 (t.currentRow - 1) = t.currentRow - 1 :=
    wrap64_eq _ (by omega) (by omega)
  simp only [footer, hcol, h1, String.append_assoc]
  simp only [append_lit (show "=SUM(" ++ "A" = "=SUM(A" from by decide),
    append_lit (show "=SUM(" ++ "B" = "=SUM(B" from by decide),
    append_lit (show "=SUM(" ++ "E" = "=SUM(E" from by decide),
    append_lit (show "=AVERAGE(" ++ "C" = "=AVERAGE(C" from by decide),
    append_lit (show "=MINUS(DIVIDE(SUM(" ++ "A" = "=MINUS(DIVIDE(SUM(A" from by decide),
    append_lit (show ":" ++ "A" = ":A" from by decide),
    append_lit (show ":" ++ "B" = ":B" from by decide),
    append_lit (show ":" ++ "C" = ":C" from by decide),
    append_lit (show ":" ++ "E" = ":E" from by decide),
    append_lit (show "," ++ "E" = ",E" from by decide),
    append_lit (show "), ABS(" ++ "A" = "), ABS(A" from by decide)]

/-- C5: in a run with start column "A" and start row `s`, when the records are
exhausted with the cursor at `c`, the next event is the write at row `c` of
the footer `=SUM(As:A(c-1))`, `=SUM(Bs:B(c-1))`, `=AVERAGE(Cs:C(c-1))`,
`=MINUS(DIVIDE(SUM(Ac,Ec), ABS(Ac)),1)`, `=SUM(Es:E(c-1))`, the numbers in
decimal: the four aggregates range over rows `s` to `c-1` and the fourth
formula names the footer's own row `c`. -/
theorem footer_row (env : Env) (reads : List ReadResult) (st s2 : State)
    (hcol : st.t.startColumn = "A")
    (hhdr : env.valuesUpdate st.trace st.t.SpreadsheetID (rangez st.t) (header st.t) = none)
    (hloop : streamLoop env reads (writeRowData env st (header st.t)).2 = .next s2)
    (hlo : -2 ^ 63 < s2.t.currentRow) (hhi : s2.t.currentRow < 2 ^ 63) :
    ∃ err rest, (parseTransations env reads st).2.trace =
      s2.trace ++ Event.valuesUpdate st.t.SpreadsheetID
        (st.t.sheetName ++ "!A" ++ fmtD s2.t.currentRow)
        [ "=SUM(A" ++ fmtD st.t.startRowIndex ++ ":A" ++ fmtD (s2.t.currentRow - 1) ++ ")",
          "=SUM(B" ++ fmtD st.t.startRowIndex ++ ":B" ++ fmtD (s2.t.currentRow - 1) ++ ")",
          "=AVERAGE(C" ++ fmtD st.t.startRowIndex ++ ":C" ++ fmtD (s2.t.currentRow - 1) ++ ")",
          "=MINUS(DIVIDE(SUM(A" ++ fmtD s2.t.currentRow ++ ",E" ++ fmtD s2.t.currentRow
            ++ "), ABS(A" ++ fmtD s2.t.currentRow ++ ")),1)",
          "=SUM(E" ++ fmtD st.t.startRowIndex ++ ":E" ++ fmtD (s2.t.currentRow - 1) ++ ")" ]
        err :: rest := by
  have hframe := (streamLoop_sound env reads (writeRowData env st (header st.t)).2).1
  rw [hloop] at hframe
  have hcfg : withoutCursor s2.t = withoutCursor st.t := hframe
  have e1 : s2.t.SpreadsheetID = st.t.SpreadsheetID := congrArg (·.SpreadsheetID) hcfg
  have e2 : s2.t.startRowIndex = st.t.startRowIndex := congrArg (·.startRowIndex) hcfg
  have e3 : s2.t.startColumn = st.t.startColumn := congrArg (·.startColumn) hcfg
  have e4 : s2.t.sheetName = st.t.sheetName := congrArg (·.sheetName) hcfg
  have hfoot := footer_strings s2.t (e3.trans hcol) hlo hhi
  rw [e2] at hfoot
  have hrange : rangez s2.t = st.t.sheetName ++ "!A" ++ fmtD s2.t.currentRow := by
    simp only [rangez, e3, e4, hcol, String.append_assoc]
    rw [append_lit (show "!" ++ "A" = "!A" from by decide)]
  have hw : writeRowData env st (header st.t) =
      (none, (writeRowData env st (header st.t)).2) := by
    simp [writeRowData, hhdr]
  unfold parseTransations
  rw [hw]
  simp only [hloop]
  split
  · rename_i err s3 hf
    obtain ⟨_, _, g3⟩ := writeRowData_eq env s2 _ _ _ hf
    exact ⟨some err, [], by rw [g3, e1, hrange, hfoot]⟩
  · rename_i s3 hf
    obtain ⟨_, _, g3⟩ := writeRowData_eq env s2 _ _ _ hf
    refine ⟨none, [Event.spreadsheetsGet s3.t.SpreadsheetID
        (env.spreadsheetsGet s3.trace s3.t.SpreadsheetID),
      Event.batchUpdate (getSheetID env s3).t.SpreadsheetID (formatRanges (getSheetID env s3).t)
        (env.batchUpdate (getSheetID env s3).trace (getSheetID env s3).t.SpreadsheetID
          (formatRanges (getSheetID env s3).t))], ?_⟩
    split <;> simp [getSheetID_trace, g3, e1, hrange, hfoot]

theorem footer_row_witness :
    ∃ err rest, (parseTransations (okEnv price015)
        [.record ["t2", "Recurring Buy", "", "50.00", "", "20.0", "", "", "", ""]]
        ⟨importer0, []⟩).2.trace =
      [Event.valuesUpdate "id" "ROI!A1"
          ["USD", "CRO", "CRO Price", "Percent Change", "USD Change"] none,
        Event.read (some (.record ["t2", "Recurring Buy", "", "50.00", "", "20.0", "", "", "", ""])),
        Event.valuesUpdate "id" "ROI!A2"
          ["50.00", "20.0", "=(DIVIDE(A2,B2))", "=(DIVIDE(MINUS(0.150000,C2),0.150000))",
            "=MULTIPLY(A2,D2)"] none,
        Event.println ["t2", "Recurring Buy", "", "50.00", "", "20.0", "", "", "", ""],
        Event.read none] ++
      Event.valuesUpdate "id" ("ROI" ++ "!A" ++ fmtD 3)
        [ "=SUM(A" ++ fmtD 1 ++ ":A" ++ fmtD (3 - 1) ++ ")",
          "=SUM(B" ++ fmtD 1 ++ ":B" ++ fmtD (3 - 1) ++ ")",
          "=AVERAGE(C" ++ fmtD 1 ++ ":C" ++ fmtD (3 - 1) ++ ")",
          "=MINUS(DIVIDE(SUM(A" ++ fmtD 3 ++ ",E" ++ fmtD 3 ++ "), ABS(A" ++ fmtD 3 ++ ")),1)",
          "=SUM(E" ++ fmtD 1 ++ ":E" ++ fmtD (3 - 1) ++ ")" ]
        err :: rest :=
  footer_row (okEnv price015)
    [.record ["t2", "Recurring Buy", "", "50.00", "", "20.0", "", "", "", ""]]
    ⟨importer0, []⟩
    ⟨{ importer0 with currentRow := 3 },
      [Event.valuesUpdate "id" "ROI!A1"
          ["USD", "CRO", "CRO Price", "Percent Change", "USD Change"] none,
        Event.read (some (.record ["t2", "Recurring Buy", "", "50.00", "", "20.0", "", "", "", ""])),
        Event.valuesUpdate "id" "ROI!A2"
          ["50.00", "20.0", "=(DIVIDE(A2,B2))", "=(DIVIDE(MINUS(0.150000,C2),0.150000))",
            "=MULTIPLY(A2,D2)"] none,
        Event.println ["t2", "Recurring Buy", "", "50.00", "", "20.0", "", "", "", ""],
        Event.read none]⟩
    (by decide) (by decide) (by decide) (by decide) (by decide)

/-! ## Theorems: a run whose writes all succeed -/

theorem writes_append (a b : List Event) : writes (a ++ b) = writes a ++ writes b := by
  induction a with
  | nil => rfl
  | cons ev rest ih =>
    cases ev <;> simp [writes, ih]

theorem isPurchase_iff (record : List String) :
    isPurchase record = true ↔ ∃ l ∈ purchaseLabels, record[1]? = some l := by
  unfold isPurchase
  cases h : record[1]? with
  | none => simp
  | some b => simp

theorem getSheetID_currentRow (env : Env) (s : State) :
    (getSheetID env s).t.currentRow = s.t.currentRow := by
  have key : ∀ (sheets : List (String × Int)) (t : TransactionImporter),
      (sheets.foldl
        (fun t sheet => if sheet.1 = t.sheetName then { t with sheetID := sheet.2 } else t)
        t).currentRow = t.currentRow := by
    intro sheets
    induction sheets with
    | nil => intro t; rfl
    | cons x xs ih =>
      intro t
      simp only [List.foldl_cons]
      rw [ih]
      split <;> rfl
  unfold getSheetID
  cases env.spreadsheetsGet s.trace s.t.SpreadsheetID with
  | error e => rfl
  | ok sheets => exact key sheets s.t

theorem writeRow_ok (env : Env) (hok : ∀ tr id rg vs, env.valuesUpdate tr id rg vs = none)
    (s : State) (record : List String) (hlen : 10 ≤ record.length)
    (hlabel : ∃ l ∈ purchaseLabels, record[1]? = some l) :
    writeRow env s record =
      .next ⟨{ s.t with currentRow := wrap64 (s.t.currentRow + 1) },
        s.trace ++ [Event.valuesUpdate s.t.SpreadsheetID (rangez s.t)
          (rowValues env.croCurrentPrice record s.t.currentRow) none, Event.println record]⟩ := by
  obtain ⟨row, h1, _, _⟩ :=
    NewRowData_purchase env.croCurrentPrice record s.t.currentRow hlen hlabel
  simp [writeRow, rowValues, h1, RowData.ToSlice, writeRowData, hok]

theorem streamLoop_all_ok (env : Env) (hok : ∀ tr id rg vs, env.valuesUpdate tr id rg vs = none)
    (records : List (List String)) (hlen : ∀ r ∈ records, 10 ≤ r.length) :
    ∀ s : State, -2 ^ 63 ≤ s.t.currentRow →
      s.t.currentRow + ((records.filter isPurchase).length : Int) < 2 ^ 63 →
      ∃ s2, streamLoop env (records.map .record) s = .next s2 ∧
        s2.t = { s.t with
          currentRow := s.t.currentRow + ((records.filter isPurchase).length : Int) } ∧
        writes s2.trace = writes s.trace ++
          dataRows env.croCurrentPrice s.t.sheetName s.t.startColumn s.t.currentRow
            (records.filter isPurchase) := by
  induction records with
  | nil =>
    intro s _ _
    refine ⟨{ s with trace := s.trace ++ [Event.read none] }, rfl, ?_, ?_⟩
    · simp
    · simp [writes_append, writes, dataRows]
  | cons r rest ih =>
    intro s hlo hhi
    have hr : 10 ≤ r.length := hlen r (by simp)
    have hrest : ∀ x ∈ rest, 10 ≤ x.length := fun x hx => hlen x (by simp [hx])
    by_cases hp : isPurchase r = true
    · have hlabel := (isPurchase_iff r).1 hp
      simp only [List.filter_cons, hp, if_true, List.length_cons] at hhi ⊢
      push_cast at hhi ⊢
      obtain ⟨a, b, rest0, hab⟩ : ∃ a b rest0, r = a :: b :: rest0 := by
        obtain ⟨a, b, c, d, e, f, g, h, i, j, rest1, hx⟩ := exists_ten_fields r hr
        exact ⟨a, b, _, hx⟩
      have hb : b ∈ purchaseLabels := by
        obtain ⟨l, hl1, hl2⟩ := hlabel
        rw [hab] at hl2
        simp at hl2
        rw [hl2]
        exact hl1
      have hstep : ∀ s0 : State, streamStep env s0 r = writeRow env s0 r := by
        intro s0
        rw [hab]
        simp [streamStep, hb]
      have hw : wrap64 (s.t.currentRow + 1) = s.t.currentRow + 1 :=
        wrap64_eq _ (by omega) (by omega)
      obtain ⟨s2, h1, h2, h3⟩ := ih hrest
        ⟨{ s.t with currentRow := s.t.currentRow + 1 },
          s.trace ++ [Event.read (some (.record r))] ++
            [Event.valuesUpdate s.t.SpreadsheetID (rangez s.t)
              (rowValues env.croCurrentPrice r s.t.currentRow) none, Event.println r]⟩
        (by simp only []; omega) (by simp only []; omega)
      refine ⟨s2, ?_, ?_, ?_⟩
      · simp only [List.map_cons, streamLoop, hstep]
        rw [writeRow_ok env hok _ r hr hlabel]
        simp only [hw]
        exact h1
      · rw [h2]
        simp only [TransactionImporter.mk.injEq, true_and, and_true]
        omega
      · rw [h3]
        simp [writes_append, writes, dataRows, rangez]
    · have hnl : ∀ l ∈ purchaseLabels, r[1]? ≠ some l := by
        intro l hl hc
        exact hp ((isPurchase_iff r).2 ⟨l, hl, hc⟩)
      have hskip := (streamStep_other env s r (by omega) hnl).2 (rest.map .record)
      simp only [List.filter_cons, hp, Bool.false_eq_true, if_false] at hhi ⊢
      obtain ⟨s2, h1, h2, h3⟩ := ih hrest
        ⟨s.t, s.trace ++ [Event.read (some (.record r))]⟩ hlo hhi
      refine ⟨s2, ?_, h2, ?_⟩
      · simp only [List.map_cons]
        rw [hskip]
        exact h1
      · rw [h3]
        simp [writes_append, writes]

theorem dataRows_length (price : Float32) (sheet col : String) (ps : List (List String)) :
    ∀ c : Int, (dataRows price sheet col c ps).length = ps.length := by
  induction ps with
  | nil => intro c; rfl
  | cons r rs ih =>
    intro c
    simp [dataRows, ih]

theorem dataRows_getElem (price : Float32) (sheet col : String) (ps : List (List String)) :
    ∀ (c : Int) (k : Nat) (r : List String), ps[k]? = some r →
      (dataRows price sheet col c ps)[k]? =
        some (sheet ++ "!" ++ col ++ fmtD (c + k), rowValues price r (c + k)) := by
  induction ps with
  | nil =>
    intro c k r h
    simp at h
  | cons x xs ih =>
    intro c k r h
    cases k with
    | zero =>
      simp at h
      subst h
      simp [dataRows]
    | succ k =>
      simp only [List.getElem?_cons_succ] at h
      simp only [dataRows, List.getElem?_cons_succ]
      rw [ih (c + 1) k r h]
      have : c + 1 + (k : Int) = c + ((k + 1 : Nat) : Int) := by
        push_cast
        omega
      rw [this]

theorem parseTransations_all_ok (env : Env)
    (hok : ∀ tr id rg vs, env.valuesUpdate tr id rg vs = none)
    (records : List (List String)) (hlen : ∀ r ∈ records, 10 ≤ r.length) (st : State)
    (hlo : -2 ^ 63 ≤ st.t.currentRow)
    (hhi : st.t.currentRow + ((records.filter isPurchase).length : Int) + 2 < 2 ^ 63) :
    writes (parseTransations env (records.map .record) st).2.trace =
      writes st.trace ++ (rangez st.t, header st.t) ::
        (dataRows env.croCurrentPrice st.t.sheetName st.t.startColumn (st.t.currentRow + 1)
            (records.filter isPurchase) ++
          [(st.t.sheetName ++ "!" ++ st.t.startColumn ++
              fmtD (st.t.currentRow + ((records.filter isPurchase).length : Int) + 1),
            footer { st.t with
              currentRow :=
                st.t.currentRow + ((records.filter isPurchase).length : Int) + 1 })]) ∧
    (parseTransations env (records.map .record) st).2.t.currentRow =
      st.t.currentRow + ((records.filter isPurchase).length : Int) + 2 := by
  have hw1 : wrap64 (st.t.currentRow + 1) = st.t.currentRow + 1 :=
    wrap64_eq _ (by omega) (by omega)
  have hw : writeRowData env st (header st.t) =
      (none, ⟨{ st.t with currentRow := st.t.currentRow + 1 },
        st.trace ++ [Event.valuesUpdate st.t.SpreadsheetID (rangez st.t) (header st.t) none]⟩) := by
    simp [writeRowData, hok, hw1]
  obtain ⟨s2, h1, h2, h3⟩ := streamLoop_all_ok env hok records hlen
    ⟨{ st.t with currentRow := st.t.currentRow + 1 },
      st.trace ++ [Event.valuesUpdate st.t.SpreadsheetID (rangez st.t) (header st.t) none]⟩
    (by simp only []; omega) (by simp only []; omega)
  simp only [] at h2 h3
  have hc2 : s2.t.currentRow =
      st.t.currentRow + ((records.filter isPurchase).length : Int) + 1 := by
    rw [h2]
    simp only []
    omega
  have hw2 : wrap64 (s2.t.currentRow + 1) =
      st.t.currentRow + ((records.filter isPurchase).length : Int) + 2 := by
    rw [hc2, wrap64_eq _ (by omega) (by omega)]
    omega
  have hs2 : s2.t = { st.t with
      currentRow := st.t.currentRow + ((records.filter isPurchase).length : Int) + 1 } := by
    rw [h2]
    simp only [TransactionImporter.mk.injEq, true_and, and_true]
    omega
  have hf : writeRowData env s2 (footer s2.t) =
      (none, ⟨{ s2.t with currentRow := wrap64 (s2.t.currentRow + 1) },
        s2.trace ++ [Event.valuesUpdate s2.t.SpreadsheetID (rangez s2.t) (footer s2.t) none]⟩) := by
    simp [writeRowData, hok]
  have hr2 : rangez s2.t = st.t.sheetName ++ "!" ++ st.t.startColumn ++
      fmtD (st.t.currentRow + ((records.filter isPurchase).length : Int) + 1) := by
    rw [hs2]
    rfl
  unfold parseTransations
  rw [hw]
  simp only [h1]
  rw [hf]
  simp only []
  constructor
  · split <;>
      simp [getSheetID_trace, writes_append, writes, h3, hr2, ← hs2]
  · split <;> simp [getSheetID_currentRow, hw2]

/-- C3: with every row write accepted and every record at least 10 fields
long, a run started at row `s` makes exactly `N + 2` row writes, `N` the number
of purchase-kind records: the header at row `s`, the `k`-th purchase-kind
record in source order at row `s + k` with the row `NewRowData` builds for row
number `s + k` (`k = 1..N`, here the list index plus one), and the footer at
row `s + N + 1`; the cursor ends at `s + N + 2`. Rows `s .. s + N + 2` are
taken inside `int64`. -/
theorem parseTransations_row_numbers (env : Env) (records : List (List String))
    (t : TransactionImporter)
    (hok : ∀ tr id rg vs, env.valuesUpdate tr id rg vs = none)
    (hlen : ∀ r ∈ records, 10 ≤ r.length)
    (hlo : -2 ^ 63 ≤ t.currentRow)
    (hhi : t.currentRow + ((records.filter isPurchase).length : Int) + 2 < 2 ^ 63) :
    (writes (parseTransations env (records.map .record) ⟨t, []⟩).2.trace).length =
      (records.filter isPurchase).length + 2 ∧
    (writes (parseTransations env (records.map .record) ⟨t, []⟩).2.trace)[0]? =
      some (t.sheetName ++ "!" ++ t.startColumn ++ fmtD t.currentRow, header t) ∧
    (∀ (k : Nat) (r : List String), (records.filter isPurchase)[k]? = some r →
      ∃ row, NewRowData env.croCurrentPrice r (t.currentRow + ((k : Int) + 1)) = .ok (some row) ∧
        (writes (parseTransations env (records.map .record) ⟨t, []⟩).2.trace)[k + 1]? =
          some (t.sheetName ++ "!" ++ t.startColumn ++ fmtD (t.currentRow + ((k : Int) + 1)),
            [row.Fiat, row.CRO, row.PurchasePrice, row.PercentChange, row.FiatChange])) ∧
    (writes (parseTransations env (records.map .record) ⟨t, []⟩).2.trace)[
        (records.filter isPurchase).length + 1]? =
      some (t.sheetName ++ "!" ++ t.startColumn ++
          fmtD (t.currentRow + ((records.filter isPurchase).length : Int) + 1),
        footer { t with
          currentRow := t.currentRow + ((records.filter isPurchase).length : Int) + 1 }) ∧
    (parseTransations env (records.map .record) ⟨t, []⟩).2.t.currentRow =
      t.currentRow + ((records.filter isPurchase).length : Int) + 2 := by
  obtain ⟨hws, hcur⟩ := parseTransations_all_ok env hok records hlen ⟨t, []⟩ hlo hhi
  simp only [writes, List.nil_append] at hws
  rw [hws]
  refine ⟨?_, ?_, ?_, ?_, hcur⟩
  · simp [dataRows_length]
  · simp [rangez]
  · intro k r hk
    have hmem : r ∈ records.filter isPurchase := List.getElem?_mem hk
    rw [List.mem_filter] at hmem
    obtain ⟨row, h1, _, _⟩ := NewRowData_purchase env.croCurrentPrice r
      (t.currentRow + ((k : Int) + 1)) (hlen r hmem.1) ((isPurchase_iff r).1 hmem.2)
    refine ⟨row, h1, ?_⟩
    have hklt : k < (records.filter isPurchase).length := by
      by_contra hge
      rw [List.getElem?_eq_none (by omega)] at hk
      cases hk
    have hd := dataRows_getElem env.croCurrentPrice t.sheetName t.startColumn
      (records.filter isPurchase) (t.currentRow + 1) k r hk
    have hadd : t.currentRow + 1 + (k : Int) = t.currentRow + ((k : Int) + 1) := by omega
    rw [hadd] at hd
    simp only [List.getElem?_cons_succ]
    rw [List.getElem?_append_left (by rw [dataRows_length]; exact hklt), hd]
    simp [rowValues, h1, RowData.ToSlice]
  · simp only [List.getElem?_cons_succ]
    rw [List.getElem?_append_right (by rw [dataRows_length])]
    simp [dataRows_length]

theorem parseTransations_row_numbers_witness :
    (writes (parseTransations (okEnv price015)
      ([["t1", "Sign-up Bonus Unlocked", "", "", "", "", "", "", "", ""],
        ["t2", "Recurring Buy", "", "50.00", "", "20.0", "", "", "", ""]].map .record)
      ⟨importer0, []⟩).2.trace)[0]? =
      some (importer0.sheetName ++ "!" ++ importer0.startColumn ++ fmtD importer0.currentRow,
        header importer0) ∧
    (parseTransations (okEnv price015)
      ([["t1", "Sign-up Bonus Unlocked", "", "", "", "", "", "", "", ""],
        ["t2", "Recurring Buy", "", "50.00", "", "20.0", "", "", "", ""]].map .record)
      ⟨importer0, []⟩).2.t.currentRow =
      importer0.currentRow +
        (([["t1", "Sign-up Bonus Unlocked", "", "", "", "", "", "", "", ""],
          ["t2", "Recurring Buy", "", "50.00", "", "20.0", "", "", "", ""]].filter
            isPurchase).length : Int) + 2 :=
  have h := parseTransations_row_numbers (okEnv price015)
    [["t1", "Sign-up Bonus Unlocked", "", "", "", "", "", "", "", ""],
      ["t2", "Recurring Buy", "", "50.00", "", "20.0", "", "", "", ""]] importer0
    (fun _ _ _ _ => rfl) (by decide) (by decide) (by decide)
  ⟨h.2.1, h.2.2.2.2⟩

theorem footer_strings_from (t : TransactionImporter) (last : Int)
    (h : wrap64 (t.currentRow - 1) = last) :
    footer t =
      [ "=SUM(" ++ t.startColumn ++ fmtD t.startRowIndex ++ ":" ++ t.startColumn
          ++ fmtD last ++ ")",
        "=SUM(B" ++ fmtD t.startRowIndex ++ ":B" ++ fmtD last ++ ")",
        "=AVERAGE(C" ++ fmtD t.startRowIndex ++ ":C" ++ fmtD last ++ ")",
        "=MINUS(DIVIDE(SUM(A" ++ fmtD t.currentRow ++ ",E" ++ fmtD t.currentRow ++ "), ABS(A"
          ++ fmtD t.currentRow ++ ")),1)",
        "=SUM(E" ++ fmtD t.startRowIndex ++ ":E" ++ fmtD last ++ ")" ] := by
  simp only [footer, h, String.append_assoc]
  simp only [append_lit (show "=SUM(" ++ "B" = "=SUM(B" from by decide),
    append_lit (show "=SUM(" ++ "E" = "=SUM(E" from by decide),
    append_lit (show "=AVERAGE(" ++ "C" = "=AVERAGE(C" from by decide),
    append_lit (show "=MINUS(DIVIDE(SUM(" ++ "A" = "=MINUS(DIVIDE(SUM(A" from by decide),
    append_lit (show ":" ++ "B" = ":B" from by decide),
    append_lit (show ":" ++ "C" = ":C" from by decide),
    append_lit (show ":" ++ "E" = ":E" from by decide),
    append_lit (show "," ++ "E" = ",E" from by decide),
    append_lit (show "), ABS(" ++ "A" = "), ABS(A" from by decide)]

/-- C4 (counterexample): for start row 1 and one accepted record the footer, at
row 3, ranges over rows 1 to 2, the header row included, not over rows 2 to 2. -/
theorem footer_range_includes_header :
    NewTransactionImporter asciiUpper opts0 = some importer0 ∧
    (writes (parseTransations (okEnv price015)
      [.record ["t2", "Recurring Buy", "", "50.00", "", "20.0", "", "", "", ""]]
      ⟨importer0, []⟩).2.trace)[2]? =
      some ("ROI!A3",
        ["=SUM(A1:A2)", "=SUM(B1:B2)", "=AVERAGE(C1:C2)",
          "=MINUS(DIVIDE(SUM(A3,E3), ABS(A3)),1)", "=SUM(E1:E2)"]) ∧
    (writes (parseTransations (okEnv price015)
      [.record ["t2", "Recurring Buy", "", "50.00", "", "20.0", "", "", "", ""]]
      ⟨importer0, []⟩).2.trace)[2]? ≠
      some ("ROI!A3",
        ["=SUM(A2:A2)", "=SUM(B2:B2)", "=AVERAGE(C2:C2)",
          "=MINUS(DIVIDE(SUM(A3,E3), ABS(A3)),1)", "=SUM(E2:E2)"]) := by
  decide

/-- C4 (amended): for the importer built with start row `s`, every row write
accepted and `N` accepted purchase records, the ranges of the footer's SUM and
AVERAGE formulas span rows `s` through `s + N`: from the header row `s`, which
is included, to the last data row, the footer row `s + N + 1` excluded. -/
theorem footer_ranges (toUpper : String → String) (opts : TransactionImporterOpts)
    (t : TransactionImporter) (env : Env) (records : List (List String))
    (h : NewTransactionImporter toUpper opts = some t)
    (hok : ∀ tr id rg vs, env.valuesUpdate tr id rg vs = none)
    (hlen : ∀ r ∈ records, 10 ≤ r.length)
    (hlo : -2 ^ 63 ≤ opts.StartRow)
    (hhi : opts.StartRow + ((records.filter isPurchase).length : Int) + 2 < 2 ^ 63) :
    (writes (parseTransations env (records.map .record) ⟨t, []⟩).2.trace)[
        (records.filter isPurchase).length + 1]? =
      some (opts.SheetName ++ "!" ++ opts.StartColumn ++
          fmtD (opts.StartRow + ((records.filter isPurchase).length : Int) + 1),
        [ "=SUM(" ++ opts.StartColumn ++ fmtD opts.StartRow ++ ":" ++ opts.StartColumn
            ++ fmtD (opts.StartRow + ((records.filter isPurchase).length : Int)) ++ ")",
          "=SUM(B" ++ fmtD opts.StartRow ++ ":B"
            ++ fmtD (opts.StartRow + ((records.filter isPurchase).length : Int)) ++ ")",
          "=AVERAGE(C" ++ fmtD opts.StartRow ++ ":C"
            ++ fmtD (opts.StartRow + ((records.filter isPurchase).length : Int)) ++ ")",
          "=MINUS(DIVIDE(SUM(A"
            ++ fmtD (opts.StartRow + ((records.filter isPurchase).length : Int) + 1) ++ ",E"
            ++ fmtD (opts.StartRow + ((records.filter isPurchase).length : Int) + 1)
            ++ "), ABS(A"
            ++ fmtD (opts.StartRow + ((records.filter isPurchase).length : Int) + 1) ++ ")),1)",
          "=SUM(E" ++ fmtD opts.StartRow ++ ":E"
            ++ fmtD (opts.StartRow + ((records.filter isPurchase).length : Int)) ++ ")" ]) := by
  obtain ⟨_, _, h3, h4, h5, h6⟩ := NewTransactionImporter_fields toUpper opts t h
  obtain ⟨sid, fiat, cur, sri, col, sci, sheet, shid⟩ := t
  simp only at h3 h4 h5 h6
  subst h3 h4 h5 h6
  obtain ⟨hws, _⟩ := parseTransations_all_ok env hok records hlen
    ⟨⟨sid, fiat, opts.StartRow, opts.StartRow, opts.StartColumn, sci, opts.SheetName, shid⟩, []⟩
    hlo hhi
  simp only [writes, List.nil_append] at hws
  rw [hws]
  simp only [List.getElem?_cons_succ]
  rw [List.getElem?_append_right (by rw [dataRows_length])]
  have hfoot := footer_strings_from
    ⟨sid, fiat, opts.StartRow + ((records.filter isPurchase).length : Int) + 1, opts.StartRow,
      opts.StartColumn, sci, opts.SheetName, shid⟩
    (opts.StartRow + ((records.filter isPurchase).length : Int))
    (by
      simp only []
      rw [wrap64_eq _ (by omega) (by omega)]
      omega)
  simp only [] at hfoot
  simp [dataRows_length, hfoot]

theorem footer_ranges_witness :
    (writes (parseTransations (okEnv price015)
      ([["t2", "Recurring Buy", "", "50.00", "", "20.0", "", "", "", ""]].map .record)
      ⟨importer0, []⟩).2.trace)[
        ([["t2", "Recurring Buy", "", "50.00", "", "20.0", "", "", "", ""]].filter
          isPurchase).length + 1]? =
      some (opts0.SheetName ++ "!" ++ opts0.StartColumn ++
          fmtD (opts0.StartRow +
            (([["t2", "Recurring Buy", "", "50.00", "", "20.0", "", "", "", ""]].filter
              isPurchase).length : Int) + 1),
        [ "=SUM(" ++ opts0.StartColumn ++ fmtD opts0.StartRow ++ ":" ++ opts0.StartColumn
            ++ fmtD (opts0.StartRow +
              (([["t2", "Recurring Buy", "", "50.00", "", "20.0", "", "", "", ""]].filter
                isPurchase).length : Int)) ++ ")",
          "=SUM(B" ++ fmtD opts0.StartRow ++ ":B"
            ++ fmtD (opts0.StartRow +
              (([["t2", "Recurring Buy", "", "50.00", "", "20.0", "", "", "", ""]].filter
                isPurchase).length : Int)) ++ ")",
          "=AVERAGE(C" ++ fmtD opts0.StartRow ++ ":C"
            ++ fmtD (opts0.StartRow +
              (([["t2", "Recurring Buy", "", "50.00", "", "20.0", "", "", "", ""]].filter
                isPurchase).length : Int)) ++ ")",
          "=MINUS(DIVIDE(SUM(A"
            ++ fmtD (opts0.StartRow +
              (([["t2", "Recurring Buy", "", "50.00", "", "20.0", "", "", "", ""]].filter
                isPurchase).length : Int) + 1) ++ ",E"
            ++ fmtD (opts0.StartRow +
              (([["t2", "Recurring Buy", "", "50.00", "", "20.0", "", "", "", ""]].filter
                isPurchase).length : Int) + 1)
            ++ "), ABS(A"
            ++ fmtD (opts0.StartRow +
              (([["t2", "Recurring Buy", "", "50.00", "", "20.0", "", "", "", ""]].filter
                isPurchase).length : Int) + 1) ++ ")),1)",
          "=SUM(E" ++ fmtD opts0.StartRow ++ ":E"
            ++ fmtD (opts0.StartRow +
              (([["t2", "Recurring Buy", "", "50.00", "", "20.0", "", "", "", ""]].filter
                isPurchase).length : Int)) ++ ")" ]) :=
  footer_ranges asciiUpper opts0 importer0 (okEnv price015)
    [["t2", "Recurring Buy", "", "50.00", "", "20.0", "", "", "", ""]]
    (by decide) (fun _ _ _ _ => rfl) (by decide) (by decide) (by decide)

/-! ## Theorems: the explorer client -/

theorem HasSuffix_slash_append (s : String) : HasSuffix (s ++ "/") "/" = true := by
  have h : ("/" : String).data = ['/'] := rfl
  simp only [HasSuffix, String.data_append, h, List.length_append, List.length_singleton,
    decide_eq_true_eq]
  refine ⟨by omega, ?_⟩
  rw [Nat.add_sub_cancel]
  exact List.drop_left _ _

theorem HasSuffix_slash_getLast (s : String) (h : HasSuffix s "/" = true) :
    s.data.getLast? = some '/' := by
  have hd : ("/" : String).data = ['/'] := rfl
  simp only [HasSuffix, hd, List.length_singleton, decide_eq_true_eq] at h
  obtain ⟨_, h2⟩ := h
  have h3 := List.take_append_drop (s.data.length - 1) s.data
  rw [h2] at h3
  rw [← h3]
  exact List.getLast?_concat _

/-- C12: for every server string the client of `NewExplorerClient` has a
`Server` that ends with "/": the input itself when the input already ends with
"/", the input with one "/" appended otherwise; normalising the result again
changes nothing; and `Client` is not nil. -/
theorem NewExplorerClient_trailing_slash (server : String) :
    HasSuffix (NewExplorerClient server).Server "/" = true ∧
    (NewExplorerClient server).Server.data.getLast? = some '/' ∧
    (NewExplorerClient server).Server =
      (if HasSuffix server "/" = true then server else server ++ "/") ∧
    (NewExplorerClient (NewExplorerClient server).Server).Server =
      (NewExplorerClient server).Server ∧
    (NewExplorerClient server).Client ≠ none ∧
    NewExplorerClient "https://crypto.org/explorer/api/v1/" =
      { Server := "https://crypto.org/explorer/api/v1/", Client := some { Timeout := 0 } } ∧
    NewExplorerClient "https://crypto.org/explorer/api/v1" =
      { Server := "https://crypto.org/explorer/api/v1/", Client := some { Timeout := 0 } } := by
  have hserver : ∀ x : String, (NewExplorerClient x).Server =
      (if HasSuffix x "/" = true then x else x ++ "/") := by
    intro x
    unfold NewExplorerClient
    by_cases hx : HasSuffix x "/" = true <;> simp [hx]
  have hends : ∀ x : String, HasSuffix (NewExplorerClient x).Server "/" = true := by
    intro x
    rw [hserver x]
    by_cases hx : HasSuffix x "/" = true
    · simp [hx]
    · simp only [hx, if_false]
      exact HasSuffix_slash_append x
  refine ⟨hends server, HasSuffix_slash_getLast _ (hends server), hserver server, ?_, ?_,
    by decide, by decide⟩
  · rw [hserver (NewExplorerClient server).Server]
    simp [hends server]
  · unfold NewExplorerClient
    by_cases hx : HasSuffix server "/" = true <;> simp [hx]

/-! ## Theorems: dispatch on the label -/

theorem streamStep_purchase (env : Env) (s : State) (record : List String)
    (hlabel : ∃ l ∈ purchaseLabels, record[1]? = some l) :
    streamStep env s record = writeRow env s record := by
  obtain ⟨l, hl1, hl2⟩ := hlabel
  rcases record with _ | ⟨a, _ | ⟨b, rest⟩⟩
  · simp at hl2
  · simp at hl2
  · simp at hl2
    subst hl2
    simp [streamStep, hl1]

theorem writeRow_purchase (env : Env) (s : State) (record : List String)
    (hlen : 10 ≤ record.length) (hlabel : ∃ l ∈ purchaseLabels, record[1]? = some l) :
    ∃ row, NewRowData env.croCurrentPrice record s.t.currentRow = .ok (some row) ∧
      ((∃ e, writeRow env s record =
          .stop (.error e)
            ⟨{ s.t with currentRow := wrap64 (s.t.currentRow + 1) },
              s.trace ++ [Event.valuesUpdate s.t.SpreadsheetID (rangez s.t)
                [row.Fiat, row.CRO, row.PurchasePrice, row.PercentChange, row.FiatChange]
                (some e)]⟩) ∨
        writeRow env s record =
          .next
            ⟨{ s.t with currentRow := wrap64 (s.t.currentRow + 1) },
              s.trace ++ [Event.valuesUpdate s.t.SpreadsheetID (rangez s.t)
                [row.Fiat, row.CRO, row.PurchasePrice, row.PercentChange, row.FiatChange] none,
                Event.println record]⟩) := by
  obtain ⟨row, h1, _, _⟩ :=
    NewRowData_purchase env.croCurrentPrice record s.t.currentRow hlen hlabel
  refine ⟨row, h1, ?_⟩
  cases herr : env.valuesUpdate s.trace s.t.SpreadsheetID (rangez s.t)
      [row.Fiat, row.CRO, row.PurchasePrice, row.PercentChange, row.FiatChange] with
  | none =>
    right
    simp [writeRow, h1, RowData.ToSlice, writeRowData, herr]
  | some e =>
    left
    exact ⟨e, by simp [writeRow, h1, RowData.ToSlice, writeRowData, herr]⟩

/-- C13: a record with at least 10 fields and a purchase label is the one
`parseTransations` hands to `writeRow`; for it `NewRowData` returns a row, not
nil, at every row number, so `ToSlice` does not panic and gives the five
values Fiat, CRO, PurchasePrice, PercentChange, FiatChange in this order;
`writeRow` does not panic and sends exactly this list to the sink. -/
theorem writeRow_row_not_nil (env : Env) (s : State) (record : List String)
    (hlen : 10 ≤ record.length) (hlabel : ∃ l ∈ purchaseLabels, record[1]? = some l) :
    streamStep env s record = writeRow env s record ∧
    (∀ n : Int, ∃ row, NewRowData env.croCurrentPrice record n = .ok (some row) ∧
      RowData.ToSlice (some row) =
        .ok [row.Fiat, row.CRO, row.PurchasePrice, row.PercentChange, row.FiatChange]) ∧
    (∀ p s1, writeRow env s record ≠ .stop (.panic p) s1) ∧
    ∃ row err tail,
      NewRowData env.croCurrentPrice record s.t.currentRow = .ok (some row) ∧
      (writeRow env s record).state.trace =
        s.trace ++ Event.valuesUpdate s.t.SpreadsheetID (rangez s.t)
          [row.Fiat, row.CRO, row.PurchasePrice, row.PercentChange, row.FiatChange] err
          :: tail ∧
      [row.Fiat, row.CRO, row.PurchasePrice, row.PercentChange, row.FiatChange].length = 5 := by
  refine ⟨streamStep_purchase env s record hlabel, ?_, ?_, ?_⟩
  · intro n
    obtain ⟨row, h1, _, _⟩ := NewRowData_purchase env.croCurrentPrice record n hlen hlabel
    exact ⟨row, h1, rfl⟩
  · intro p s1 hc
    obtain ⟨row, _, h2 | h2⟩ := writeRow_purchase env s record hlen hlabel
    · obtain ⟨e, h2⟩ := h2
      rw [h2] at hc
      simp at hc
    · rw [h2] at hc
      simp at hc
  · obtain ⟨row, h1, h2 | h2⟩ := writeRow_purchase env s record hlen hlabel
    · obtain ⟨e, h2⟩ := h2
      exact ⟨row, some e, [], h1, by rw [h2]; rfl, rfl⟩
    · exact ⟨row, none, [Event.println record], h1, by rw [h2]; rfl, rfl⟩

theorem writeRow_row_not_nil_witness :
    ∃ row,
      NewRowData (okEnv price015).croCurrentPrice
          ["t3", "EUR -> CRO", "", "", "", "12.5", "", "40", "", ""] 7 = .ok (some row) ∧
        RowData.ToSlice (some row) =
          .ok [row.Fiat, row.CRO, row.PurchasePrice, row.PercentChange, row.FiatChange] :=
  (writeRow_row_not_nil (okEnv price015) ⟨importer0, []⟩
    ["t3", "EUR -> CRO", "", "", "", "12.5", "", "40", "", ""] (by decide)
    ⟨"EUR -> CRO", by decide, by decide⟩).2.1 7

/-- C11: the decision of the `switch` depends on the label only. Two records
with at least 10 fields and the same string at index 1 are both projected
(a row write at the current row is issued and the cursor moves by one) or both
skipped (the state is untouched), whatever their other fields hold; and every
label is in exactly one of the three classes purchase, reward, ignore. -/
theorem streamStep_label_only (env : Env) (s : State) (r1 r2 : List String)
    (h1 : 10 ≤ r1.length) (h2 : 10 ≤ r2.length) (hsame : r1[1]? = r2[1]?) :
    (isPurchase r1 = isPurchase r2) ∧
    ((isPurchase r1 = true ∧
        ∀ r ∈ [r1, r2],
          (streamStep env s r).state.t.currentRow = wrap64 (s.t.currentRow + 1) ∧
          ∃ values err tail, (streamStep env s r).state.trace =
            s.trace ++ Event.valuesUpdate s.t.SpreadsheetID (rangez s.t) values err :: tail) ∨
      (isPurchase r1 = false ∧ ∀ r ∈ [r1, r2], streamStep env s r = .next s)) ∧
    (∀ label : String,
      (label ∈ purchaseLabels ∧ label ∉ rewardLabels) ∨
      (label ∉ purchaseLabels ∧ label ∈ rewardLabels) ∨
      (label ∉ purchaseLabels ∧ label ∉ rewardLabels)) := by
  have hsamep : isPurchase r1 = isPurchase r2 := by
    simp only [isPurchase, hsame]
  have hproj : ∀ r : List String, 10 ≤ r.length → isPurchase r = true →
      (streamStep env s r).state.t.currentRow = wrap64 (s.t.currentRow + 1) ∧
      ∃ values err tail, (streamStep env s r).state.trace =
        s.trace ++ Event.valuesUpdate s.t.SpreadsheetID (rangez s.t) values err :: tail := by
    intro r hr hp
    have hlabel := (isPurchase_iff r).1 hp
    rw [streamStep_purchase env s r hlabel]
    obtain ⟨row, _, g | g⟩ := writeRow_purchase env s r hr hlabel
    · obtain ⟨e, g⟩ := g
      rw [g]
      exact ⟨rfl, _, some e, [], rfl⟩
    · rw [g]
      exact ⟨rfl, _, none, [Event.println r], rfl⟩
  have hskip : ∀ r : List String, 10 ≤ r.length → isPurchase r = false →
      streamStep env s r = .next s := by
    intro r hr hp
    refine (streamStep_other env s r (by omega) ?_).1
    intro l hl hc
    have := (isPurchase_iff r).2 ⟨l, hl, hc⟩
    rw [hp] at this
    cases this
  refine ⟨hsamep, ?_, ?_⟩
  · cases hp : isPurchase r1 with
    | true =>
      left
      refine ⟨rfl, ?_⟩
      intro r hr
      simp only [List.mem_cons, List.mem_singleton, List.not_mem_nil, or_false] at hr
      rcases hr with rfl | rfl
      · exact hproj _ h1 hp
      · exact hproj _ h2 (hsamep ▸ hp)
    | false =>
      right
      refine ⟨rfl, ?_⟩
      intro r hr
      simp only [List.mem_cons, List.mem_singleton, List.not_mem_nil, or_false] at hr
      rcases hr with rfl | rfl
      · exact hskip _ h1 hp
      · exact hskip _ h2 (hsamep ▸ hp)
  · intro label
    by_cases hp : label ∈ purchaseLabels
    · left
      refine ⟨hp, ?_⟩
      simp [purchaseLabels] at hp
      rcases hp with rfl | rfl | rfl | rfl <;> decide
    · by_cases hr : label ∈ rewardLabels
      · exact Or.inr (Or.inl ⟨hp, hr⟩)
      · exact Or.inr (Or.inr ⟨hp, hr⟩)

theorem streamStep_label_only_witness :
    isPurchase ["t2", "Recurring Buy", "", "50.00", "", "20.0", "", "", "", ""] =
      isPurchase ["t9", "Recurring Buy", "x", "", "y", "abc", "", "1", "2", "3", "4"] :=
  (streamStep_label_only (okEnv price015) ⟨importer0, []⟩
    ["t2", "Recurring Buy", "", "50.00", "", "20.0", "", "", "", ""]
    ["t9", "Recurring Buy", "x", "", "y", "abc", "", "1", "2", "3", "4"]
    (by decide) (by decide) (by decide)).1

end CryptoTracker
